import Mathlib

/-!
Persistence layer of the Valentine proposal application.

A shallow embedding of `src/js/database.js` (and of the helpers of `src/js/utils.js`
it shares) together with theorems about it.

Modelling conventions.

* A JavaScript string is the list of its UTF-16 code units (`JsString`), so `length`,
  `substring` and the regular expressions (which carry no `u` flag) count what the
  engine counts.
* Regular expressions are values of `Regex`, run by a backtracking matcher that lists
  the results in the priority order of the ECMAScript matcher.
* `localStorage` is an association list from keys to parsed JSON texts.  Every entry is
  taken to have been written through `JSON.stringify`; `JSON.parse (JSON.stringify x)`
  is taken to be `x` (a property whose value is `undefined` is dropped by
  `JSON.stringify` and reads as `undefined` afterwards, which is what it read before).
  The storage quota is not modelled: `setItem` always succeeds.
* Readings of the clock, of `Math.random` and of the other collaborators of a call are
  passed in an `Env`.
* The remote client is an oracle answering the queries sent to it; the queries an
  operation issues are logged in the outcome.
-/

namespace Valentine

/-! ## Strings -/

/-- A JavaScript string: its UTF-16 code units. -/
abbrev JsString := List Nat

/-- The code units of a literal whose characters all lie in the basic plane. -/
def js (s : String) : JsString := s.toList.map Char.toNat

/-- Membership in the `WhiteSpace` and `LineTerminator` productions, which is what
`String.prototype.trim` strips. -/
def isWhiteSpace (c : Nat) : Bool :=
  c == 9 || c == 10 || c == 11 || c == 12 || c == 13 || c == 32 || c == 160 ||
  c == 5760 || (8192 ≤ c && c ≤ 8202) || c == 8232 || c == 8233 || c == 8239 ||
  c == 8287 || c == 12288 || c == 65279

/-- `String.prototype.trim`. -/
def trim (s : JsString) : JsString :=
  ((s.dropWhile isWhiteSpace).reverse.dropWhile isWhiteSpace).reverse

/-- `String.prototype.substring(0, n)`. -/
def substring0 (n : Nat) (s : JsString) : JsString := s.take n

/-- `String.prototype.substr(start, length)` for non-negative arguments. -/
def substr (start len : Nat) (s : JsString) : JsString := (s.drop start).take len

/-- Decimal digits of `n`, most significant first, prepended to `acc`. -/
def decimalCore : Nat → Nat → JsString → JsString
  | 0, _, acc => acc
  | fuel + 1, n, acc =>
    if n / 10 = 0 then (48 + n % 10) :: acc
    else decimalCore fuel (n / 10) ((48 + n % 10) :: acc)

/-- `Number.prototype.toString` on a natural number (below `10^21`, where JavaScript
prints every digit). -/
def decimal (n : Nat) : JsString := decimalCore (n + 1) n []

/-! ## Regular expressions -/

/-- The fragment of the regular expression language the sources use. -/
inductive Regex where
  /-- The empty pattern. -/
  | eps
  /-- One code unit accepted by `p`: a literal or a character class. -/
  | unit (p : Nat → Bool)
  /-- Concatenation. -/
  | seq (a b : Regex)
  /-- Greedy `*`. -/
  | star (a : Regex)
  /-- Negative lookahead `(?!a)`. -/
  | notAhead (a : Regex)
  /-- The assertion `\b`. -/
  | wordBoundary
  /-- The assertion `^` (no `m` flag): the start of the input. -/
  | bol
  /-- The assertion `$` (no `m` flag): the end of the input. -/
  | eol

/-- A position of the matcher: the code unit before it (if any) and what follows it. -/
abbrev Pos := Option Nat × JsString

/-- The class `\w` (`[A-Za-z0-9_]`); outside the string nothing is a word character. -/
def isWordChar : Option Nat → Bool
  | none => false
  | some c => (48 ≤ c && c ≤ 57) || (65 ≤ c && c ≤ 90) || (97 ≤ c && c ≤ 122) || c == 95

/-- Greedy iteration of `step`: first the results that run one more iteration, then the
result that stops here.  An iteration that consumes nothing is rejected (the empty check
of `RepeatMatcher`), so `fuel = s.length` iterations are all there can be. -/
def starLoop (step : Option Nat → JsString → List Pos) : Nat → Option Nat → JsString → List Pos
  | 0, prev, s => [(prev, s)]
  | fuel + 1, prev, s =>
    (((step prev s).filter (fun st => decide (st.2.length < s.length))).flatMap
        (fun st => starLoop step fuel st.1 st.2)) ++ [(prev, s)]

/-- All the ways `r` matches at a position, in backtracking order; each result is the
position after the match. -/
def Regex.run : Regex → Option Nat → JsString → List Pos
  | .eps => fun prev s => [(prev, s)]
  | .unit p => fun _ s =>
    match s with
    | [] => []
    | c :: t => if p c then [(some c, t)] else []
  | .seq a b => fun prev s => (a.run prev s).flatMap (fun st => b.run st.1 st.2)
  | .star a => fun prev s => starLoop a.run s.length prev s
  | .notAhead a => fun prev s => if (a.run prev s).isEmpty then [(prev, s)] else []
  | .wordBoundary => fun prev s =>
    if isWordChar prev != isWordChar s.head? then [(prev, s)] else []
  | .bol => fun prev s => if prev.isNone then [(prev, s)] else []
  | .eol => fun prev s => if s.isEmpty then [(prev, s)] else []

/-- The match the engine reports at a position: the first in backtracking order. -/
def Regex.exec (r : Regex) (prev : Option Nat) (s : JsString) : Option Pos :=
  (r.run prev s).head?

/-- `String.prototype.replace(r, '')` for a regular expression with the `g` flag, from a
position on: a match is dropped and the scan resumes after it; where there is no match,
or only an empty one, the code unit is kept and the scan advances by one. -/
def replaceAllFrom (r : Regex) : Nat → Option Nat → JsString → JsString
  | 0, _, s => s
  | fuel + 1, prev, s =>
    match r.exec prev s with
    | some (prev', s') =>
      if s'.length < s.length then replaceAllFrom r fuel prev' s'
      else
        match s with
        | [] => []
        | c :: t => c :: replaceAllFrom r fuel (some c) t
    | none =>
      match s with
      | [] => []
      | c :: t => c :: replaceAllFrom r fuel (some c) t

/-- `s.replace(r, '')` with `r` global. -/
def replaceAll (r : Regex) (s : JsString) : JsString :=
  replaceAllFrom r (s.length + 1) none s

/-- A literal code unit. -/
def Regex.lit (c : Char) : Regex := .unit (fun x => x == c.toNat)

/-- A literal ASCII letter under the `i` flag.  Without the `u` flag `Canonicalize` never
maps a code unit above 127 to one below 128, so exactly the two ASCII case forms match. -/
def Regex.litCI (c : Char) : Regex :=
  .unit (fun x => x == c.toLower.toNat || x == c.toUpper.toNat)

/-- The negated class `[^c]`. -/
def Regex.notChar (c : Char) : Regex := .unit (fun x => x != c.toNat)

/-- Concatenation of a list of patterns. -/
def Regex.seqAll : List Regex → Regex
  | [] => .eps
  | r :: rs => .seq r (seqAll rs)

/-- The pattern `<\/script>` under the `i` flag. -/
def closeScriptRe : Regex :=
  .seqAll [.lit '<', .lit '/', .litCI 's', .litCI 'c', .litCI 'r', .litCI 'i', .litCI 'p',
    .litCI 't', .lit '>']

/-- The pattern `/<script\b[^<]*(?:(?!<\/script>)<[^<]*)*<\/script>/gi`. -/
def scriptRe : Regex :=
  .seqAll [.lit '<', .litCI 's', .litCI 'c', .litCI 'r', .litCI 'i', .litCI 'p', .litCI 't',
    .wordBoundary,
    .star (.notChar '<'),
    .star (.seqAll [.notAhead closeScriptRe, .lit '<', .star (.notChar '<')]),
    closeScriptRe]

/-- The pattern `/<[^>]*>/g`. -/
def tagRe : Regex :=
  .seqAll [.lit '<', .star (.notChar '>'), .lit '>']

/-! ## Values -/

/-- The primitive values the application handles.  `num` holds an integer. -/
inductive JsVal where
  | undefined
  | null
  | str (s : JsString)
  | num (n : Int)
  deriving DecidableEq, Repr

/-- `ToBoolean`. -/
def JsVal.truthy : JsVal → Bool
  | .undefined => false
  | .null => false
  | .str s => !s.isEmpty
  | .num n => n != 0

/-- `toString()` of a value that passed the truthiness test of `sanitizeInput`. -/
def JsVal.toJsString : JsVal → JsString
  | .undefined => js "undefined"
  | .null => js "null"
  | .str s => s
  | .num n => if n < 0 then js "-" ++ decimal n.natAbs else decimal n.natAbs

/-- The function `sanitizeInput` of `database.js` (lines 221-230; `utils.js` repeats it
verbatim at lines 403-412). -/
def sanitizeInput (input : JsVal) : JsString :=
  if !input.truthy then []
  else
    substring0 50
      (replaceAll tagRe
        (replaceAll scriptRe
          (trim input.toJsString)))

/-! ## Objects, storage and the remote client -/

/-- The property names the sources read or write. -/
inductive Field where
  | id | unique_url_id | from_name | to_name | from_email | created_at | response
  | proposal_id | responder_name | responded_at
  | ip_address | user_agent | session_id | actual_responder_name
  | fromName | toName | fromEmail
  | proposalId | responderName
  | askerName
  | code
  | data | expiry
  deriving DecidableEq, Repr

/-- An object whose properties hold primitive values, as an object literal lists them. -/
abbrev JsObj := List (Field × JsVal)

/-- Property read `o.f`; a missing property reads as `undefined`. -/
def JsObj.get : JsObj → Field → JsVal
  | [], _ => .undefined
  | (k, v) :: rest, f => if k = f then v else JsObj.get rest f

/-- A parsed JSON text: an object, or an array of objects. -/
inductive Json where
  | obj (o : JsObj)
  | arr (xs : List JsObj)
  deriving DecidableEq, Repr

/-- The contents of `localStorage`: each key with the parsed JSON text stored under it. -/
abbrev LocalStorage := List (JsString × Json)

/-- Lookup of a key, as `localStorage.getItem` followed by `JSON.parse`. -/
def LocalStorage.getItem : LocalStorage → JsString → Option Json
  | [], _ => none
  | (k, v) :: rest, key => if k = key then some v else LocalStorage.getItem rest key

/-- Write of a key, as `JSON.stringify` followed by `localStorage.setItem`. -/
def LocalStorage.setItem : LocalStorage → JsString → Json → LocalStorage
  | [], key, v => [(key, v)]
  | (k, v') :: rest, key, v =>
    if k = key then (key, v) :: rest else (k, v') :: LocalStorage.setItem rest key v

/-- What a call can throw. -/
inductive JsError where
  /-- Read of a `let`/`const` binding before its declaration has run. -/
  | referenceError
  /-- Property read on `null`, or call of something that is not a function. -/
  | typeError
  /-- An error object handed over by the remote client. -/
  | thrown (e : JsObj)
  deriving DecidableEq, Repr

/-- The queries `database.js` sends to the remote store. -/
inductive RemoteCall where
  /-- `from('proposals').insert([row]).select().single()` -/
  | insertProposal (row : JsObj)
  /-- `from('proposals').select('*').eq('unique_url_id', v).single()` -/
  | selectProposal (uniqueUrlId : JsVal)
  /-- `from('responses').insert([row]).select().single()` -/
  | insertResponse (row : JsObj)
  /-- `from('proposals').update(changes).eq('id', v)` -/
  | updateProposal (changes : JsObj) (id : JsVal)
  /-- `from('responses').select('*').eq('proposal_id', v).eq('response', 'OUI').single()` -/
  | selectOui (proposalId : JsVal)
  /-- `from('proposals').select(..., responses(...)).eq('from_name', v).order('created_at', ...)` -/
  | selectByAsker (fromName : JsVal)
  deriving DecidableEq, Repr

/-- The `{ data, error }` object a query resolves to; `none` stands for `null`. -/
structure Reply where
  data : Option Json
  error : Option JsObj
  deriving DecidableEq, Repr

/-- The remote client: how the store answers a query, given the queries answered before;
an `error` is a query that throws instead of resolving. -/
abbrev Remote := List RemoteCall → RemoteCall → Except JsError Reply

/-- What a call reads from its collaborators. -/
structure Env where
  /-- First reading of `Date.now()`. -/
  now : Nat
  /-- Second reading of `Date.now()`. -/
  now2 : Nat
  /-- The text `Math.random().toString(36)`. -/
  random36 : JsString
  /-- The text `new Date().toISOString()`. -/
  isoTime : JsString
  /-- What `getClientIP()` resolves to. -/
  clientIP : JsString
  /-- The text `navigator.userAgent`. -/
  userAgent : JsString
  /-- What `getSessionId()` returns. -/
  sessionId : JsString
  deriving DecidableEq, Repr

/-- The state the operations act on: local storage, and the log of the queries sent to
the remote store (oldest first). -/
structure World where
  storage : LocalStorage
  calls : List RemoteCall
  deriving DecidableEq, Repr

/-- A computation that returns or throws, and leaves a state either way. -/
def Js (α : Type) : Type := World → Except JsError α × World

/-- Return. -/
def Js.pure {α : Type} (a : α) : Js α := fun w => (.ok a, w)

/-- Sequencing: a throw skips the rest. -/
def Js.bind {α β : Type} (m : Js α) (f : α → Js β) : Js β := fun w =>
  match m w with
  | (.ok a, w') => f a w'
  | (.error e, w') => (.error e, w')

/-- The statement `throw e`. -/
def Js.throw {α : Type} (e : JsError) : Js α := fun w => (.error e, w)

/-- The statement `try { body } catch (error) { handler }`. -/
def Js.tryCatch {α : Type} (body : Js α) (handler : JsError → Js α) : Js α := fun w =>
  match body w with
  | (.ok a, w') => (.ok a, w')
  | (.error e, w') => handler e w'

instance : Monad Js where
  pure := Js.pure
  bind := Js.bind

/-- The call `localStorage.getItem(key)`, parsed. -/
def getItem (key : JsString) : Js (Option Json) := fun w => (.ok (w.storage.getItem key), w)

/-- The call `localStorage.setItem(key, JSON.stringify(v))`. -/
def setItem (key : JsString) (v : Json) : Js Unit := fun w =>
  (.ok (), { w with storage := w.storage.setItem key v })

/-- One query to the remote store, logged. -/
def query (remote : Remote) (c : RemoteCall) : Js Reply := fun w =>
  match remote w.calls c with
  | .ok r => (.ok r, { w with calls := w.calls ++ [c] })
  | .error e => (.error e, { w with calls := w.calls ++ [c] })

/-- A `let`/`const` binding of a block: in its temporal dead zone until the declaration
has run. -/
inductive Binding (α : Type) where
  | uninitialised
  | initialised (v : α)

/-- Read of an identifier bound by `let`/`const`. -/
def Binding.read {α : Type} : Binding α → Js α
  | .uninitialised => Js.throw .referenceError
  | .initialised v => Js.pure v

/-- The receiver of an array method: anything but an array has no `find`/`filter`. -/
def Json.asArray : Json → Js (List JsObj)
  | .arr xs => Js.pure xs
  | .obj _ => Js.throw .typeError

/-- The receiver of a property read: `null` throws, an array has none of the fields. -/
def asObject : Option Json → Js JsObj
  | none => Js.throw .typeError
  | some (.obj o) => Js.pure o
  | some (.arr _) => Js.pure []

/-- The key `'valentine_responses'`. -/
def responsesKey : JsString := js "valentine_responses"

/-- The text `'OUI'`. -/
def OUI : JsVal := .str (js "OUI")

/-! ## The local-storage fallback (`database.js`, lines 259-325) -/

/-- The object literal `proposal` of `createProposalLocal` (lines 265-273). -/
def localProposal (env : Env) (proposalData : JsObj) : JsObj :=
  [ (.id, .str (js "local_" ++ decimal env.now)),
    (.unique_url_id,
      .str (js "valentine_" ++ decimal env.now2 ++ js "_" ++ substr 2 9 env.random36)),
    (.from_name, .str (sanitizeInput (proposalData.get .fromName))),
    (.to_name, .str (sanitizeInput (proposalData.get .toName))),
    (.from_email, proposalData.get .fromEmail),
    (.created_at, .str env.isoTime),
    (.response, .str (js "PENDING")) ]

/-- The function `createProposalLocal` (lines 264-277). -/
def createProposalLocal (env : Env) (proposalData : JsObj) : Js (Option Json) := do
  let proposal := localProposal env proposalData
  setItem (proposal.get .unique_url_id).toJsString (.obj proposal)
  return some (.obj proposal)

/-- The function `getProposalLocal` (lines 282-285). -/
def getProposalLocal (uniqueUrlId : JsVal) : Js (Option Json) := do
  let data ← getItem uniqueUrlId.toJsString
  return data

/-- The expression `JSON.parse(localStorage.getItem('valentine_responses') || '[]')`. -/
def storedResponses : Js Json := do
  match ← getItem responsesKey with
  | some v => return v
  | none => return .arr []

/-- The test `r.proposal_id === proposalId && r.response === 'OUI'`. -/
def isOuiFor (proposalId : JsVal) (r : JsObj) : Bool :=
  r.get .proposal_id == proposalId && r.get .response == OUI

/-- The object literal `response` of `createResponseLocal` (lines 297-303). -/
def localResponse (env : Env) (responseData : JsObj) : JsObj :=
  [ (.id, .str (js "local_" ++ decimal env.now)),
    (.proposal_id, responseData.get .proposalId),
    (.response, responseData.get .response),
    (.responder_name, .str (sanitizeInput (responseData.get .responderName))),
    (.responded_at, .str env.isoTime) ]

/-- The function `createResponseLocal` (lines 290-309). -/
def createResponseLocal (env : Env) (responseData : JsObj) : Js (Option Json) := do
  let responses ← (← storedResponses).asArray
  let existing := responses.find? (isOuiFor (responseData.get .proposalId))
  if existing.isSome then return none
  let response := localResponse env responseData
  setItem responsesKey (.arr (responses ++ [response]))
  return some (.obj response)

/-- The function `getResponsesByAskerLocal` (lines 314-317). -/
def getResponsesByAskerLocal (fromName : JsVal) : Js (Option Json) := do
  let responses ← (← storedResponses).asArray
  return some (.arr (responses.filter (fun r => r.get .askerName == .str (sanitizeInput fromName))))

/-- The function `getExistingResponseLocal` (lines 322-325). -/
def getExistingResponseLocal (proposalId : JsVal) : Js (Option Json) := do
  let responses ← (← storedResponses).asArray
  return (responses.find? (isOuiFor proposalId)).map Json.obj

/-! ## The public operations (`database.js`, lines 45-212) -/

/-- The text `'PGRST116'`, the code of "no row" on a single-row select. -/
def PGRST116 : JsVal := .str (js "PGRST116")

/-- The row `createProposal` inserts (lines 54-60). -/
def proposalRow (env : Env) (proposalData : JsObj) : JsObj :=
  [ (.from_name, .str (sanitizeInput (proposalData.get .fromName))),
    (.to_name, .str (sanitizeInput (proposalData.get .toName))),
    (.from_email,
      if (proposalData.get .fromEmail).truthy
      then .str (sanitizeInput (proposalData.get .fromEmail)) else .null),
    (.ip_address, .str env.clientIP),
    (.user_agent, .str env.userAgent) ]

/-- The function `createProposal` (lines 45-72). -/
def createProposal (supabase : Option Remote) (env : Env) (proposalData : JsObj) :
    Js (Option Json) :=
  Js.tryCatch
    (match supabase with
     | none => createProposalLocal env proposalData
     | some remote => do
       let reply ← query remote (.insertProposal (proposalRow env proposalData))
       match reply.error with
       | some e => Js.throw (.thrown e)
       | none => return reply.data)
    (fun _ => createProposalLocal env proposalData)

/-- The function `getProposalByUniqueId` (lines 79-98). -/
def getProposalByUniqueId (supabase : Option Remote) (uniqueUrlId : JsVal) :
    Js (Option Json) :=
  Js.tryCatch
    (match supabase with
     | none => getProposalLocal uniqueUrlId
     | some remote => do
       let reply ← query remote (.selectProposal (.str (sanitizeInput uniqueUrlId)))
       match reply.error with
       | some e => if e.get .code != PGRST116 then Js.throw (.thrown e) else return reply.data
       | none => return reply.data)
    (fun _ => getProposalLocal uniqueUrlId)

/-- The function `getExistingResponse` (lines 159-179). -/
def getExistingResponse (supabase : Option Remote) (proposalId : JsVal) :
    Js (Option Json) :=
  Js.tryCatch
    (match supabase with
     | none => getExistingResponseLocal proposalId
     | some remote => do
       let reply ← query remote (.selectOui proposalId)
       match reply.error with
       | some e => if e.get .code != PGRST116 then return none else return reply.data
       | none => return reply.data)
    (fun _ => return none)

/-- The function `createResponse` (lines 105-152).  Its `try` block declares
`const { data: responseData, error: responseError }` (line 119), so inside that block,
nested blocks included, the name `responseData` denotes that constant and not the
parameter; the constant is `inner` below, the parameter is `responseData`. -/
def createResponse (supabase : Option Remote) (env : Env) (responseData : JsObj) :
    Js (Option Json) :=
  Js.tryCatch
    (do
      let inner : Binding (Option Json) := .uninitialised
      match supabase with
      | none =>
        -- line 108: `return createResponseLocal(responseData)`
        let arg ← inner.read
        createResponseLocal env (← asObject arg)
      | some remote =>
        -- line 112: `await getExistingResponse(responseData.proposalId)`
        let existingResponse ← getExistingResponse supabase ((← asObject (← inner.read)).get .proposalId)
        if existingResponse.isSome then return none
        -- lines 119-130: the initialiser is evaluated before the constant is bound
        let proposal_id := (← asObject (← inner.read)).get .proposalId
        let response := sanitizeInput ((← asObject (← inner.read)).get .response)
        let responder_name := sanitizeInput ((← asObject (← inner.read)).get .responderName)
        let reply ← query remote (.insertResponse
          [ (.proposal_id, proposal_id),
            (.response, .str response),
            (.responder_name, .str responder_name),
            (.ip_address, .str env.clientIP),
            (.user_agent, .str env.userAgent),
            (.session_id, .str env.sessionId) ])
        let inner : Binding (Option Json) := .initialised reply.data
        match reply.error with
        | some e => Js.throw (.thrown e)
        | none =>
          -- lines 135-142
          let newResponse : JsVal :=
            if (← asObject (← inner.read)).get .response == OUI then OUI else .str (js "PENDING")
          let actual := sanitizeInput ((← asObject (← inner.read)).get .responderName)
          let id := (← asObject (← inner.read)).get .proposalId
          let update ← query remote (.updateProposal
            [ (.response, newResponse),
              (.responded_at, .str env.isoTime),
              (.actual_responder_name, .str actual) ] id)
          match update.error with
          | some e => Js.throw (.thrown e)
          | none => return (← inner.read))
    (fun _ => createResponseLocal env responseData)

/-- The function `getResponsesByAsker` (lines 186-212). -/
def getResponsesByAsker (supabase : Option Remote) (fromName : JsVal) :
    Js (Option Json) :=
  Js.tryCatch
    (match supabase with
     | none => getResponsesByAskerLocal fromName
     | some remote => do
       let reply ← query remote (.selectByAsker (.str (sanitizeInput fromName)))
       match reply.error with
       | some e => Js.throw (.thrown e)
       | none =>
         match reply.data with
         | some d => return some d
         | none => return some (.arr []))
    (fun _ => getResponsesByAskerLocal fromName)

/-! ## Storage with expiry (`utils.js`, lines 317-358) -/

/-- Removal of a key, as `localStorage.removeItem`. -/
def LocalStorage.removeItem (ls : LocalStorage) (key : JsString) : LocalStorage :=
  ls.filter (fun kv => decide (kv.1 ≠ key))

/-- The call `localStorage.removeItem(key)`. -/
def removeItem (key : JsString) : Js Unit := fun w =>
  (.ok (), { w with storage := w.storage.removeItem key })

/-- The comparison `now > v` of a number with a value: `ToNumber` makes `undefined` a NaN
(every comparison false) and `null` zero; what number a string stands for, if any, is
left to `stringToNumber`. -/
def numberGreaterThan (stringToNumber : JsString → Option Int) (now : Nat) : JsVal → Bool
  | .undefined => false
  | .null => decide ((0 : Int) < now)
  | .num n => decide (n < (now : Int))
  | .str s =>
    match stringToNumber s with
    | some n => decide (n < (now : Int))
    | none => false

/-- The property read `item.f` on a parsed entry; an array has none of the fields. -/
def Json.prop : Json → Field → JsVal
  | .obj o, f => o.get f
  | .arr _, _ => .undefined

/-- The function `Storage.setWithExpiry` (lines 324-330); `now` is the reading of
`Date.now()`. -/
def setWithExpiry (now : Nat) (key : JsString) (data : JsVal) (ttl : Int) : Js Unit := do
  let item : JsObj := [(.data, data), (.expiry, .num (now + ttl))]
  setItem key (.obj item)

/-- The function `Storage.getWithExpiry` (lines 337-348); `now` is the reading of
`Date.now()`. -/
def getWithExpiry (stringToNumber : JsString → Option Int) (now : Nat) (key : JsString) :
    Js JsVal := do
  match ← getItem key with
  | none => return .null
  | some item =>
    if numberGreaterThan stringToNumber now (item.prop .expiry) then
      removeItem key
      return .null
    return item.prop .data

/-- The loop of `Storage.clearExpired` over the keys that are left to visit; `clock i` is
the reading of `Date.now()` at the visit of the key of index `i`. -/
def clearExpiredFrom (stringToNumber : JsString → Option Int) (clock : Nat → Nat) :
    Nat → List JsString → Js Unit
  | _, [] => return ()
  | i, key :: rest => do
    let _ ← getWithExpiry stringToNumber (clock i) key
    clearExpiredFrom stringToNumber clock (i + 1) rest

/-- The function `Storage.clearExpired` (lines 353-357): `Object.keys(localStorage)` is
taken once, then every key is visited. -/
def clearExpired (stringToNumber : JsString → Option Int) (clock : Nat → Nat) : Js Unit :=
  fun w => clearExpiredFrom stringToNumber clock 0 (w.storage.map Prod.fst) w

/-! ## Validation (`utils.js`, lines 65-144) -/

/-- The UTF-16 code units of a literal, astral characters as surrogate pairs. -/
def utf16 (s : String) : JsString :=
  s.toList.flatMap (fun c =>
    if c.toNat < 65536 then [c.toNat]
    else [55296 + (c.toNat - 65536) / 1024, 56320 + (c.toNat - 65536) % 1024])

/-- Greedy `a+`: one iteration, then `a*`. -/
def Regex.plus (a : Regex) : Regex := .seq a (.star a)

/-- The scan of `RegExp.prototype.test` (no `g` flag) from a position on: the first
index at which the pattern matches decides. -/
def Regex.testFrom (r : Regex) : Option Nat → JsString → Bool
  | prev, [] => (r.exec prev []).isSome
  | prev, c :: t => (r.exec prev (c :: t)).isSome || Regex.testFrom r (some c) t

/-- `r.test(s)`. -/
def Regex.test (r : Regex) (s : JsString) : Bool := r.testFrom none s

/-- The class `[a-zA-ZàâäéèêëïîôöùûüÿçÀÂÄÉÈÊËÏÎÔÖÙÛÜŸÇ\s'-]` of `validateName`; the
source writes the accented letters precomposed. -/
def isNameChar (c : Nat) : Bool :=
  (97 ≤ c && c ≤ 122) || (65 ≤ c && c ≤ 90) ||
  (utf16 "àâäéèêëïîôöùûüÿçÀÂÄÉÈÊËÏÎÔÖÙÛÜŸÇ").contains c ||
  isWhiteSpace c || c == 39 || c == 45

/-- The pattern `/^[a-zA-Zàâä...ÜŸÇ\s'-]+$/` of `validateName` (line 86). -/
def nameRe : Regex := .seqAll [.bol, .plus (.unit isNameChar), .eol]

/-- The result `{isValid, message}` of a validator. -/
structure Validation where
  isValid : Bool
  message : JsString
  deriving DecidableEq, Repr

/-- The function `Validator.validateName` (lines 71-91). -/
def validateName (name : JsString) : Validation :=
  let trimmedName := trim name
  if trimmedName.isEmpty then
    { isValid := false, message := utf16 "Le nom est requis 💕" }
  else if trimmedName.length < 2 then
    { isValid := false, message := utf16 "Le nom doit contenir au moins 2 caractères" }
  else if trimmedName.length > 50 then
    { isValid := false, message := utf16 "Le nom ne doit pas dépasser 50 caractères" }
  else if !nameRe.test trimmedName then
    { isValid := false, message := utf16 "Le nom contient des caractères invalides" }
  else
    { isValid := true, message := [] }

/-! ## Percent-encoding and query strings (the built-ins `utils.js` calls) -/

/-- The code points of a string, read with the high surrogate that awaits its low half
(if any); `none` stands for an unpaired surrogate. -/
def codePointsFrom : Option Nat → JsString → List (Option Nat)
  | none, [] => []
  | some _, [] => [none]
  | none, c :: t =>
    if 55296 ≤ c && c ≤ 56319 then codePointsFrom (some c) t
    else if 56320 ≤ c && c ≤ 57343 then none :: codePointsFrom none t
    else some c :: codePointsFrom none t
  | some h, c :: t =>
    if 56320 ≤ c && c ≤ 57343 then
      some (65536 + (h - 55296) * 1024 + (c - 56320)) :: codePointsFrom none t
    else if 55296 ≤ c && c ≤ 56319 then none :: codePointsFrom (some c) t
    else none :: some c :: codePointsFrom none t

/-- The code points of a string. -/
def codePoints (s : JsString) : List (Option Nat) := codePointsFrom none s

/-- The UTF-8 bytes of a code point. -/
def utf8Bytes (cp : Nat) : List Nat :=
  if cp < 128 then [cp]
  else if cp < 2048 then [192 + cp / 64, 128 + cp % 64]
  else if cp < 65536 then [224 + cp / 4096, 128 + cp / 64 % 64, 128 + cp % 64]
  else [240 + cp / 262144, 128 + cp / 4096 % 64, 128 + cp / 64 % 64, 128 + cp % 64]

/-- UTF-8 encoding of a string; an unpaired surrogate becomes U+FFFD. -/
def utf8Encode (s : JsString) : List Nat :=
  (codePoints s).flatMap (fun cp => utf8Bytes (cp.getD 65533))

/-- An uppercase hexadecimal digit. -/
def hexDigit (n : Nat) : Nat := if n < 10 then 48 + n else 55 + n

/-- The text `%XX` of a byte. -/
def percentEncodeByte (b : Nat) : JsString := [37, hexDigit (b / 16), hexDigit (b % 16)]

/-- The characters `encodeURIComponent` leaves alone: letters, digits and `-_.!~*'()`. -/
def isUriUnreserved (c : Nat) : Bool :=
  (48 ≤ c && c ≤ 57) || (65 ≤ c && c ≤ 90) || (97 ≤ c && c ≤ 122) ||
  (js "-_.!~*'()").contains c

/-- The built-in `encodeURIComponent`; `none` is the `URIError` thrown on an unpaired
surrogate. -/
def encodeURIComponent (s : JsString) : Option JsString :=
  (codePoints s).foldr
    (fun cp rest =>
      match cp, rest with
      | some c, some out =>
        some ((if isUriUnreserved c then [c] else (utf8Bytes c).flatMap percentEncodeByte) ++ out)
      | _, _ => none)
    (some [])

/-- The `application/x-www-form-urlencoded` byte serializer on one byte. -/
def formEncodeByte (b : Nat) : JsString :=
  if b = 32 then [43]
  else if b = 42 || b = 45 || b = 46 || (48 ≤ b && b ≤ 57) || (65 ≤ b && b ≤ 90) ||
      b = 95 || (97 ≤ b && b ≤ 122) then [b]
  else percentEncodeByte b

/-- The serialization of one name or value. -/
def formEncode (s : JsString) : JsString := (utf8Encode s).flatMap formEncodeByte

/-- `URLSearchParams.prototype.toString`: the pairs as `name=value`, joined by `&`. -/
def searchParamsToString : List (JsString × JsString) → JsString
  | [] => []
  | [(n, v)] => formEncode n ++ [61] ++ formEncode v
  | (n, v) :: rest => formEncode n ++ [61] ++ formEncode v ++ [38] ++ searchParamsToString rest

/-- The pieces of a byte sequence between the occurrences of `sep`. -/
def splitOnByte (sep : Nat) : List Nat → List (List Nat)
  | [] => [[]]
  | c :: t =>
    if c = sep then [] :: splitOnByte sep t
    else
      match splitOnByte sep t with
      | [] => [[c]]
      | hd :: tl => (c :: hd) :: tl

/-- The value of a hexadecimal digit, if the byte is one. -/
def hexValue (b : Nat) : Option Nat :=
  if 48 ≤ b && b ≤ 57 then some (b - 48)
  else if 65 ≤ b && b ≤ 70 then some (b - 55)
  else if 97 ≤ b && b ≤ 102 then some (b - 87)
  else none

/-- Percent-decoding of a byte sequence: `%XX` becomes the byte, any other `%` stays. -/
def percentDecode : List Nat → List Nat
  | [] => []
  | c :: t =>
    let decodedTail := percentDecode t
    if c = 37 then
      match t with
      | a :: b :: t' =>
        match hexValue a, hexValue b with
        | some x, some y => (16 * x + y) :: percentDecode t'
        | _, _ => 37 :: decodedTail
      | _ => 37 :: decodedTail
    else c :: decodedTail

/-- The state of the UTF-8 decoder: the code point under construction, the bytes it
needs and has seen, and the bounds of the next byte. -/
structure Utf8State where
  codePoint : Nat
  needed : Nat
  seen : Nat
  lower : Nat
  upper : Nat
  deriving DecidableEq, Repr

/-- The decoder between two code points. -/
def Utf8State.initial : Utf8State :=
  { codePoint := 0, needed := 0, seen := 0, lower := 128, upper := 191 }

/-- A byte read when no code point is under construction. -/
def utf8Lead (b : Nat) : Utf8State × List Nat :=
  if b ≤ 127 then (.initial, [b])
  else if 194 ≤ b && b ≤ 223 then
    ({ Utf8State.initial with needed := 1, codePoint := b % 32 }, [])
  else if 224 ≤ b && b ≤ 239 then
    ({ Utf8State.initial with
        needed := 2, codePoint := b % 16,
        lower := if b = 224 then 160 else 128,
        upper := if b = 237 then 159 else 191 }, [])
  else if 240 ≤ b && b ≤ 244 then
    ({ Utf8State.initial with
        needed := 3, codePoint := b % 8,
        lower := if b = 240 then 144 else 128,
        upper := if b = 244 then 143 else 191 }, [])
  else (.initial, [65533])

/-- One byte read by the UTF-8 decoder: the new state and the code points emitted.  A
byte out of bounds ends the code point under construction with U+FFFD and is read
again as a lead byte. -/
def utf8Step (st : Utf8State) (b : Nat) : Utf8State × List Nat :=
  if st.needed = 0 then utf8Lead b
  else if b < st.lower || st.upper < b then
    ((utf8Lead b).1, 65533 :: (utf8Lead b).2)
  else if st.seen + 1 = st.needed then
    (.initial, [st.codePoint * 64 + b % 64])
  else
    ({ codePoint := st.codePoint * 64 + b % 64, needed := st.needed, seen := st.seen + 1,
        lower := 128, upper := 191 }, [])

/-- The code points of a byte sequence ("UTF-8 decode without BOM"). -/
def utf8DecodeFrom : Utf8State → List Nat → List Nat
  | st, [] => if st.needed = 0 then [] else [65533]
  | st, b :: t => (utf8Step st b).2 ++ utf8DecodeFrom (utf8Step st b).1 t

/-- UTF-8 decoding of a byte sequence into a string. -/
def utf8Decode (bytes : List Nat) : JsString :=
  (utf8DecodeFrom .initial bytes).flatMap (fun cp =>
    if cp < 65536 then [cp]
    else [55296 + (cp - 65536) / 1024, 56320 + (cp - 65536) % 1024])

/-- One name or value of a query: `+` is a space, then percent-decoding and UTF-8. -/
def formDecode (bytes : List Nat) : JsString :=
  utf8Decode (percentDecode (bytes.map (fun b => if b = 43 then 32 else b)))

/-- One `name=value` piece of a query, split at its first `=`. -/
def parsePair (bytes : List Nat) : JsString × JsString :=
  (formDecode (bytes.takeWhile (fun b => b != 61)),
    formDecode ((bytes.dropWhile (fun b => b != 61)).drop 1))

/-- The constructor `new URLSearchParams(text)`: a leading `?` is dropped, the rest is
split at `&`, empty pieces are skipped. -/
def parseSearchParams (search : JsString) : List (JsString × JsString) :=
  ((splitOnByte 38
      (utf8Encode (match search with
        | 63 :: rest => rest
        | other => other))).filter (fun piece => !piece.isEmpty)).map parsePair

/-- `URLSearchParams.prototype.get`: the first value of the name, `none` for `null`. -/
def searchParamsGet (params : List (JsString × JsString)) (name : JsString) : Option JsString :=
  (params.find? (fun p => p.1 == name)).map Prod.snd

/-- The function `URLUtils.generateProposalUrl` (lines 371-383); `baseUrl` is
`window.location.origin + window.location.pathname`, `none` the `URIError` of
`encodeURIComponent`. -/
def generateProposalUrl (baseUrl uniqueId fromName toName : JsString) : Option JsString := do
  let encodedFrom ← encodeURIComponent fromName
  let params := [(js "id", uniqueId), (js "from", encodedFrom)]
  let params ←
    if !toName.isEmpty then do
      let encodedTo ← encodeURIComponent toName
      pure (params ++ [(js "to", encodedTo)])
    else pure params
  return baseUrl ++ js "?" ++ searchParamsToString params

/-- What `window.location.search` is on a page opened with the URL: the text from the
first `?` on (the generated URL holds no `#`). -/
def searchOf (url : JsString) : JsString := url.dropWhile (fun c => c != 63)

/-- The `data` object `validateUrlParams` returns; `from_` and `to_` are its properties
`from` and `to`, two reserved words here. -/
structure UrlData where
  id : JsString
  from_ : JsString
  to_ : Option JsString
  deriving DecidableEq, Repr

/-- The result `{isValid, data}` of `validateUrlParams`. -/
structure UrlValidation where
  isValid : Bool
  data : Option UrlData
  deriving DecidableEq, Repr

/-- The function `Validator.validateUrlParams` (lines 116-143). -/
def validateUrlParams (params : List (JsString × JsString)) : UrlValidation :=
  match searchParamsGet params (js "id"), searchParamsGet params (js "from") with
  | some id, some from_ =>
    if id.isEmpty || from_.isEmpty then { isValid := false, data := none }
    else if !(validateName from_).isValid then { isValid := false, data := none }
    else
      let to_ := searchParamsGet params (js "to")
      let toIsValid :=
        match to_ with
        | some t => if !t.isEmpty then (validateName t).isValid else true
        | none => true
      { isValid := toIsValid,
        data := some
          { id := sanitizeInput (.str id),
            from_ := sanitizeInput (.str from_),
            to_ := match to_ with
              | some t => if !t.isEmpty then some (sanitizeInput (.str t)) else none
              | none => none } }
  | _, _ => { isValid := false, data := none }

/-! ## Start-up (`database.js`, lines 16-38) -/

/-- What `initializeDatabase` finds in the page: the global `supabaseClient` (`none`
when it is undefined; otherwise what `createClient(SUPABASE_URL, SUPABASE_ANON_KEY)`
does, returning a client or throwing), and the error the DOM calls throw, if any. -/
structure Page where
  supabaseClient : Option (Except JsError Remote)
  domError : Option JsError

/-- The state when `initializeDatabase` returns: its result, the module variable
`supabase`, and whether a script element was appended whose `onload` handler (lines
23-26) would set `supabase` in a later task, if the script loads. -/
structure InitOutcome where
  result : Bool
  supabase : Option Remote
  onloadPending : Bool

/-- The function `initializeDatabase` (lines 16-38), from the value `supabase` has at
the call.  The function has no `await`: it runs to its `return` before any `onload`
handler can. -/
def initializeDatabase (page : Page) (supabase : Option Remote) : InitOutcome :=
  match page.supabaseClient with
  | none =>
    match page.domError with
    | some _ => { result := false, supabase := supabase, onloadPending := false }
    | none => { result := true, supabase := supabase, onloadPending := true }
  | some createClient =>
    match createClient with
    | .ok client => { result := true, supabase := some client, onloadPending := false }
    | .error _ => { result := false, supabase := supabase, onloadPending := false }

/-! ## Predicates and scenarios of the specification -/

/-- The response list the fallback functions work on: the array stored under
`'valentine_responses'`, the empty array when the key is absent; `none` when the entry
is not an array (no function of the application writes such an entry). -/
def responsesOf (ls : LocalStorage) : Option (List JsObj) :=
  match ls.getItem responsesKey with
  | none => some []
  | some (.arr xs) => some xs
  | some (.obj _) => none

/-- The fallback response list holds no `OUI` response for `proposalId`. -/
def HoldsNoOui (ls : LocalStorage) (proposalId : JsVal) : Prop :=
  ∃ xs, responsesOf ls = some xs ∧
    ∀ r ∈ xs, ¬ (r.get .proposal_id = proposalId ∧ r.get .response = OUI)

/-- For each `proposal_id` the stored response list contains at most one record whose
response is `OUI`. -/
def AtMostOneOui (ls : LocalStorage) : Prop :=
  ∃ xs, responsesOf ls = some xs ∧ ∀ proposalId, xs.countP (isOuiFor proposalId) ≤ 1

/-- A sequence of sequential `createResponse` calls, each with the remote handle, the
readings and the argument of its moment. -/
def createResponses : List (Option Remote × Env × JsObj) → World → World
  | [], w => w
  | (supabase, env, responseData) :: rest, w =>
    createResponses rest (createResponse supabase env responseData w).2

/-- A query that reports an error: it throws, or resolves with a non-null `error`. -/
def reportsError : Except JsError Reply → Bool
  | .error _ => true
  | .ok r => r.error.isSome

/-- A single-row select that reports an error other than the no-row code `PGRST116`. -/
def reportsErrorOtherThanNoRow : Except JsError Reply → Bool
  | .error _ => true
  | .ok r =>
    match r.error with
    | some e => e.get .code != PGRST116
    | none => false

/-- The string has a substring that starts with `<` and ends with a later `>`, that is,
a match of `<[^>]*>`. -/
def ContainsTag (s : JsString) : Prop :=
  ∃ a b c : JsString, s = a ++ [60] ++ b ++ [62] ++ c

/-- What follows the first `>` of a string, if there is one. -/
def afterFirstGt : JsString → Option JsString
  | [] => none
  | c :: t => if c = 62 then some t else afterFirstGt t

/-- The number a text of decimal digits stands for. -/
def decimalValue (ds : JsString) : Nat :=
  ds.foldl (fun a d => 10 * a + (d - 48)) 0

/-- How local storage after a clean-up relates to local storage before it: under every
key the entry is the one that was there, or the key is gone and the entry that was
there has an `expiry` property (it is not `undefined`). -/
def KeptOrExpired (before after : LocalStorage) : Prop :=
  ∀ key, after.getItem key = before.getItem key ∨
    (after.getItem key = none ∧
      ∃ v, before.getItem key = some v ∧ v.prop .expiry ≠ .undefined)

/-- Readings used in the worked examples. -/
def exampleEnv : Env :=
  { now := 1000, now2 := 1001, random36 := js "0.4fzyo82mvyr",
    isoTime := js "2024-02-14T10:00:00.000Z", clientIP := js "unknown",
    userAgent := js "UA", sessionId := js "session_1" }

/-- A remote client every query of which resolves with an error of code `500`. -/
def failingRemote : Remote :=
  fun _ _ => .ok { data := none, error := some [(.code, .str (js "500"))] }

/-- A remote client that holds nothing and accepts everything: selects resolve with no
row, inserts resolve with the inserted row, updates resolve without error. -/
def emptyRemote : Remote := fun _ c =>
  match c with
  | .insertProposal row => .ok { data := some (.obj row), error := none }
  | .insertResponse row => .ok { data := some (.obj row), error := none }
  | .updateProposal _ _ => .ok { data := none, error := none }
  | .selectProposal _ => .ok { data := none, error := some [(.code, PGRST116)] }
  | .selectOui _ => .ok { data := none, error := some [(.code, PGRST116)] }
  | .selectByAsker _ => .ok { data := some (.arr []), error := none }

/-! ## Lemmas -/

theorem getItem_setItem_same (ls : LocalStorage) (k : JsString) (v : Json) :
    (ls.setItem k v).getItem k = some v := by
  induction ls with
  | nil => simp [LocalStorage.setItem, LocalStorage.getItem]
  | cons hd tl ih =>
    obtain ⟨k', v'⟩ := hd
    by_cases h : k' = k
    · simp [LocalStorage.setItem, LocalStorage.getItem, h]
    · simp [LocalStorage.setItem, LocalStorage.getItem, h, ih]

theorem getItem_setItem_ne (ls : LocalStorage) (k k' : JsString) (v : Json) (h : k' ≠ k) :
    (ls.setItem k v).getItem k' = ls.getItem k' := by
  induction ls with
  | nil => simp [LocalStorage.setItem, LocalStorage.getItem, Ne.symm h]
  | cons hd tl ih =>
    obtain ⟨k₀, v₀⟩ := hd
    by_cases h₀ : k₀ = k
    · subst h₀
      simp [LocalStorage.setItem, LocalStorage.getItem, Ne.symm h]
    · by_cases h₁ : k₀ = k'
      · subst h₁
        simp [LocalStorage.setItem, LocalStorage.getItem, h₀]
      · simp [LocalStorage.setItem, LocalStorage.getItem, h₀, h₁, ih]

theorem responsesOf_setItem (ls : LocalStorage) (xs : List JsObj) :
    responsesOf (ls.setItem responsesKey (.arr xs)) = some xs := by
  simp [responsesOf, getItem_setItem_same]

/-- Inside its `try` block `createResponse` reads the uninitialised constant first, so
with or without a remote handle it ends in the `catch` block. -/
theorem createResponse_eq_local (supabase : Option Remote) (env : Env) (rd : JsObj) (w : World) :
    createResponse supabase env rd w = createResponseLocal env rd w := by
  cases supabase <;> simp [createResponse, Js.tryCatch, Binding.read, Js.throw, bind, Js.bind]

/-- What `createResponseLocal` does on a store whose response list is `xs`. -/
theorem createResponseLocal_of (env : Env) (rd : JsObj) (w : World) (xs : List JsObj)
    (h : responsesOf w.storage = some xs) :
    createResponseLocal env rd w =
      if (xs.find? (isOuiFor (rd.get .proposalId))).isSome then (.ok none, w)
      else (.ok (some (.obj (localResponse env rd))),
        { w with storage := w.storage.setItem responsesKey (.arr (xs ++ [localResponse env rd])) }) := by
  unfold responsesOf at h
  unfold createResponseLocal storedResponses
  cases hg : w.storage.getItem responsesKey with
  | none =>
    rw [hg] at h
    injection h with h
    subst h
    simp [bind, Js.bind, pure, Js.pure, getItem, setItem, hg, Json.asArray]
  | some v =>
    rw [hg] at h
    cases v with
    | obj o => simp at h
    | arr ys =>
      simp at h
      subst h
      by_cases hf : (List.find? (isOuiFor (rd.get .proposalId)) ys).isSome
      · simp [bind, Js.bind, pure, Js.pure, getItem, setItem, hg, Json.asArray, hf]
      · simp [bind, Js.bind, pure, Js.pure, getItem, setItem, hg, Json.asArray, hf]

theorem isOuiFor_localResponse (env : Env) (rd : JsObj) (q : JsVal) :
    isOuiFor q (localResponse env rd) = true ↔
      (rd.get .proposalId = q ∧ rd.get .response = OUI) := by
  simp [isOuiFor, localResponse, JsObj.get]

theorem find_none_of_holdsNoOui (xs : List JsObj) (p : JsVal)
    (h : ∀ r ∈ xs, ¬ (r.get .proposal_id = p ∧ r.get .response = OUI)) :
    xs.find? (isOuiFor p) = none := by
  rw [List.find?_eq_none]
  intro r hr
  have := h r hr
  simpa [isOuiFor] using this

theorem countP_zero_of_find_none (xs : List JsObj) (p : JsVal)
    (h : xs.find? (isOuiFor p) = none) : xs.countP (isOuiFor p) = 0 := by
  rw [List.countP_eq_zero]
  rw [List.find?_eq_none] at h
  exact h

/-- One call of `createResponseLocal` keeps the invariant and returns. -/
theorem createResponseLocal_atMostOneOui (env : Env) (rd : JsObj) (w : World)
    (h : AtMostOneOui w.storage) :
    (∃ r, (createResponseLocal env rd w).1 = .ok r) ∧
      AtMostOneOui (createResponseLocal env rd w).2.storage := by
  obtain ⟨xs, hxs, hcount⟩ := h
  rw [createResponseLocal_of env rd w xs hxs]
  cases hf : xs.find? (isOuiFor (rd.get .proposalId)) with
  | some r =>
    simp only [Option.isSome_some, if_true]
    exact ⟨⟨_, rfl⟩, xs, hxs, hcount⟩
  | none =>
    simp only [Option.isSome_none, Bool.false_eq_true, if_false]
    refine ⟨⟨_, rfl⟩, _, responsesOf_setItem _ _, ?_⟩
    intro q
    rw [List.countP_append]
    by_cases hq : isOuiFor q (localResponse env rd) = true
    · have hq' := (isOuiFor_localResponse env rd q).1 hq
      have h0 : xs.countP (isOuiFor q) = 0 := by
        rw [← hq'.1]; exact countP_zero_of_find_none xs _ hf
      simp [h0, List.countP_cons, hq]
    · have := hcount q
      simp [List.countP_cons, hq]
      exact this

/-- C1. On a store whose response list holds no `OUI` response for `p`, two consecutive
calls `createResponse({proposalId: p, response: 'OUI', responderName})` return a
response record the first time and `null` the second time, whatever the remote handle
and the readings of either call. -/
theorem createResponse_oui_twice (s₁ s₂ : Option Remote) (env₁ env₂ : Env)
    (p responderName : JsVal) (w : World) (h : HoldsNoOui w.storage p) :
    ∃ r w₁,
      createResponse s₁ env₁
          [(.proposalId, p), (.response, OUI), (.responderName, responderName)] w
        = (.ok (some (.obj r)), w₁) ∧
      createResponse s₂ env₂
          [(.proposalId, p), (.response, OUI), (.responderName, responderName)] w₁
        = (.ok none, w₁) := by
  obtain ⟨xs, hxs, hno⟩ := h
  have hfind := find_none_of_holdsNoOui xs p hno
  refine ⟨localResponse env₁
      [(.proposalId, p), (.response, OUI), (.responderName, responderName)],
    { w with storage := w.storage.setItem responsesKey (.arr (xs ++ [localResponse env₁
      [(.proposalId, p), (.response, OUI), (.responderName, responderName)]])) }, ?_, ?_⟩
  · rw [createResponse_eq_local, createResponseLocal_of _ _ w xs hxs]
    simp only [JsObj.get, if_true, reduceCtorEq, if_false, hfind, Option.isSome_none,
      Bool.false_eq_true]
  · rw [createResponse_eq_local,
      createResponseLocal_of _ _ _ _ (responsesOf_setItem _ _)]
    have : isOuiFor p (localResponse env₁
        [(.proposalId, p), (.response, OUI), (.responderName, responderName)]) = true := by
      rw [isOuiFor_localResponse]; simp [JsObj.get]
    simp [JsObj.get, List.find?_append, hfind, this]

/-- C1, at a concrete input: an empty store, the proposal `local_1000`, responder Bob. -/
theorem createResponse_oui_twice_witness :
    HoldsNoOui (World.mk [] []).storage (.str (js "local_1000")) ∧
    ∃ r w₁,
      createResponse none exampleEnv
          [(.proposalId, .str (js "local_1000")), (.response, OUI),
            (.responderName, .str (js "Bob"))] (World.mk [] [])
        = (.ok (some (.obj r)), w₁) ∧
      createResponse none exampleEnv
          [(.proposalId, .str (js "local_1000")), (.response, OUI),
            (.responderName, .str (js "Bob"))] w₁
        = (.ok none, w₁) :=
  have h : HoldsNoOui (World.mk [] []).storage (.str (js "local_1000")) :=
    ⟨[], rfl, by simp⟩
  ⟨h, createResponse_oui_twice none none exampleEnv exampleEnv _ _ _ h⟩

/-- C2. "At most one `OUI` response per `proposal_id`" is an invariant of the fallback
store: it holds for the empty store, every `createResponse` call (any remote handle,
readings, proposalId, response value and responder name) returns and keeps it, and so
it holds after every sequence of sequential calls. -/
theorem atMostOneOui_invariant (w : World) (h : AtMostOneOui w.storage) :
    AtMostOneOui ([] : LocalStorage) ∧
    (∀ (supabase : Option Remote) (env : Env) (responseData : JsObj),
      (∃ r, (createResponse supabase env responseData w).1 = .ok r) ∧
      AtMostOneOui (createResponse supabase env responseData w).2.storage) ∧
    (∀ calls : List (Option Remote × Env × JsObj),
      AtMostOneOui (createResponses calls w).storage) := by
  refine ⟨⟨[], rfl, by simp⟩, ?_, ?_⟩
  · intro s env rd
    rw [createResponse_eq_local]
    exact createResponseLocal_atMostOneOui env rd w h
  · intro calls
    induction calls generalizing w with
    | nil => exact h
    | cons c rest ih =>
      obtain ⟨s, env, rd⟩ := c
      simp only [createResponses]
      apply ih
      rw [createResponse_eq_local]
      exact (createResponseLocal_atMostOneOui env rd w h).2

/-- C2, at a concrete input: the empty store. -/
theorem atMostOneOui_invariant_witness :
    AtMostOneOui (World.mk [] []).storage ∧
    AtMostOneOui (createResponses
      [(none, exampleEnv, [(.proposalId, .str (js "local_1000")), (.response, OUI)]),
       (some emptyRemote, exampleEnv, [(.proposalId, .str (js "local_1000")), (.response, OUI)])]
      (World.mk [] [])).storage :=
  have h : AtMostOneOui (World.mk [] []).storage := ⟨[], rfl, by simp⟩
  ⟨h, (atMostOneOui_invariant (World.mk [] []) h).2.2 _⟩

theorem decimalCore_head (fuel n : Nat) (acc : JsString)
    (hacc : ∀ d t, acc = d :: t → d < 58) (hne : acc ≠ [] ∨ fuel ≠ 0) :
    ∃ d t, decimalCore fuel n acc = d :: t ∧ d < 58 := by
  induction fuel generalizing n acc with
  | zero =>
    cases acc with
    | nil => simp at hne
    | cons d t => exact ⟨d, t, rfl, hacc d t rfl⟩
  | succ fuel ih =>
    unfold decimalCore
    have hd : 48 + n % 10 < 58 := by omega
    by_cases h0 : n / 10 = 0
    · simp only [h0, if_true]
      exact ⟨_, _, rfl, hd⟩
    · simp only [h0, if_false]
      apply ih
      · intro d t hdt
        injection hdt with h1 _
        omega
      · left; simp

/-- The decimal text of a number starts with a digit. -/
theorem decimal_head (n : Nat) : ∃ d t, decimal n = d :: t ∧ d < 58 :=
  decimalCore_head (n + 1) n [] (by simp) (Or.inr (by simp))

/-- The key of a proposal written by `createProposalLocal` is not the key of the
response list. -/
theorem proposalKey_ne_responsesKey (env : Env) (pd : JsObj) :
    ((localProposal env pd).get .unique_url_id).toJsString ≠ responsesKey := by
  obtain ⟨d, t, hd, hlt⟩ := decimal_head env.now2
  simp only [localProposal, JsObj.get, if_true, reduceCtorEq, if_false, JsVal.toJsString, hd]
  intro h
  have h' : (js "valentine_" ++ (d :: t) ++ js "_" ++ substr 2 9 env.random36).get? 10
      = responsesKey.get? 10 := by rw [h]
  have e1 : (js "valentine_" ++ (d :: t) ++ js "_" ++ substr 2 9 env.random36).get? 10
      = some d := by
    simp [js]
  have e2 : responsesKey.get? 10 = some 114 := by decide
  rw [e1, e2] at h'
  injection h' with h'
  omega

theorem createProposalLocal_eq (env : Env) (pd : JsObj) (w : World) :
    createProposalLocal env pd w =
      (.ok (some (.obj (localProposal env pd))),
        World.mk (w.storage.setItem ((localProposal env pd).get .unique_url_id).toJsString
          (.obj (localProposal env pd))) w.calls) := rfl

theorem createProposal_none (env : Env) (pd : JsObj) (w : World) :
    createProposal none env pd w = createProposalLocal env pd w := by
  simp [createProposal, Js.tryCatch, createProposalLocal_eq]

theorem getProposalLocal_eq (u : JsVal) (w : World) :
    getProposalLocal u w = (.ok (w.storage.getItem u.toJsString), w) := rfl

theorem getProposalByUniqueId_none (u : JsVal) (w : World) :
    getProposalByUniqueId none u w = getProposalLocal u w := by
  simp [getProposalByUniqueId, Js.tryCatch, getProposalLocal_eq]

theorem responsesOf_setItem_ne (ls : LocalStorage) (k : JsString) (v : Json)
    (h : k ≠ responsesKey) : responsesOf (ls.setItem k v) = responsesOf ls := by
  simp [responsesOf, getItem_setItem_ne ls k responsesKey v (Ne.symm h)]

/-- What `createResponseLocal` does when the list holds no `OUI` for the proposal. -/
theorem createResponseLocal_fresh (env : Env) (rd : JsObj) (w : World) (xs : List JsObj)
    (h : responsesOf w.storage = some xs)
    (hf : xs.find? (isOuiFor (rd.get .proposalId)) = none) :
    createResponseLocal env rd w =
      (.ok (some (.obj (localResponse env rd))),
        World.mk (w.storage.setItem responsesKey (.arr (xs ++ [localResponse env rd])))
          w.calls) := by
  rw [createResponseLocal_of env rd w xs h, hf]
  rfl

/-- C3. On the fallback store the proposal never moves to `OUI`: for every proposal
data, responder name and every remote handle at the moment of the response, after
`createProposal` returned `P` and `createResponse` with `'OUI'` for `P.id` returned a
record, `getProposalByUniqueId(P.unique_url_id)` returns `P` itself, whose response is
still `'PENDING'`. -/
theorem createResponse_oui_leaves_proposal_pending (supabase : Option Remote)
    (env₁ env₂ : Env) (proposalData : JsObj) (responderName : JsVal) (w : World)
    (h : HoldsNoOui w.storage ((localProposal env₁ proposalData).get .id)) :
    ∃ P r w₁ w₂,
      createProposal none env₁ proposalData w = (.ok (some (.obj P)), w₁) ∧
      createResponse supabase env₂
          [(.proposalId, P.get .id), (.response, OUI), (.responderName, responderName)] w₁
        = (.ok (some (.obj r)), w₂) ∧
      r.get .response = OUI ∧
      getProposalByUniqueId none (P.get .unique_url_id) w₂ = (.ok (some (.obj P)), w₂) ∧
      P.get .response = .str (js "PENDING") := by
  obtain ⟨xs, hxs, hno⟩ := h
  have hkey := proposalKey_ne_responsesKey env₁ proposalData
  have hxs' : responsesOf (createProposalLocal env₁ proposalData w).2.storage = some xs := by
    rw [createProposalLocal_eq]
    show responsesOf (LocalStorage.setItem _ _ _) = _
    rw [responsesOf_setItem_ne _ _ _ hkey]; exact hxs
  have hfind' : xs.find? (isOuiFor (JsObj.get
      [(.proposalId, (localProposal env₁ proposalData).get .id), (.response, OUI),
        (.responderName, responderName)] .proposalId)) = none :=
    find_none_of_holdsNoOui xs _ hno
  have hstep := createResponseLocal_fresh env₂
    [(.proposalId, (localProposal env₁ proposalData).get .id), (.response, OUI),
      (.responderName, responderName)] _ xs hxs' hfind'
  refine ⟨localProposal env₁ proposalData, _, (createProposalLocal env₁ proposalData w).2, _,
    ?_, (createResponse_eq_local _ _ _ _).trans hstep, ?_, ?_, ?_⟩
  · rw [createProposal_none]; rfl
  · simp [localResponse, JsObj.get, OUI]
  · rw [getProposalByUniqueId_none, getProposalLocal_eq]
    congr 2
    show LocalStorage.getItem (LocalStorage.setItem (LocalStorage.setItem _ _ _) _ _) _ = _
    rw [getItem_setItem_ne _ _ _ _ hkey, getItem_setItem_same]
  · simp [localProposal, JsObj.get]

/-- C3, at a concrete input: Alice asks Bob on an empty store, Bob answers `OUI`. -/
theorem createResponse_oui_leaves_proposal_pending_witness :
    HoldsNoOui (World.mk [] []).storage
      ((localProposal exampleEnv
        [(.fromName, .str (js "Alice")), (.toName, .str (js "Bob"))]).get .id) ∧
    ∃ P r w₁ w₂,
      createProposal none exampleEnv
          [(.fromName, .str (js "Alice")), (.toName, .str (js "Bob"))] (World.mk [] [])
        = (.ok (some (.obj P)), w₁) ∧
      createResponse none exampleEnv
          [(.proposalId, P.get .id), (.response, OUI), (.responderName, .str (js "Bob"))] w₁
        = (.ok (some (.obj r)), w₂) ∧
      r.get .response = OUI ∧
      getProposalByUniqueId none (P.get .unique_url_id) w₂ = (.ok (some (.obj P)), w₂) ∧
      P.get .response = .str (js "PENDING") :=
  have h : HoldsNoOui (World.mk [] []).storage
      ((localProposal exampleEnv
        [(.fromName, .str (js "Alice")), (.toName, .str (js "Bob"))]).get .id) :=
    ⟨[], rfl, by simp⟩
  ⟨h, createResponse_oui_leaves_proposal_pending none exampleEnv exampleEnv _ _ _ h⟩

/-- C4. On the fallback store, for every proposal data (validated or not) and every
state, `getProposalByUniqueId(createProposal(data).unique_url_id)` returns a record
whose `from_name` is `sanitizeInput(fromName)`, whose `to_name` is
`sanitizeInput(toName)` and whose response is `'PENDING'`. -/
theorem createProposal_then_getProposalByUniqueId (env : Env) (proposalData : JsObj)
    (w : World) :
    ∃ P w₁ Q,
      createProposal none env proposalData w = (.ok (some (.obj P)), w₁) ∧
      getProposalByUniqueId none (P.get .unique_url_id) w₁ = (.ok (some (.obj Q)), w₁) ∧
      Q.get .from_name = .str (sanitizeInput (proposalData.get .fromName)) ∧
      Q.get .to_name = .str (sanitizeInput (proposalData.get .toName)) ∧
      Q.get .response = .str (js "PENDING") := by
  refine ⟨localProposal env proposalData, (createProposalLocal env proposalData w).2,
    localProposal env proposalData, ?_, ?_, ?_, ?_, ?_⟩
  · rw [createProposal_none, createProposalLocal_eq]
  · rw [getProposalByUniqueId_none, getProposalLocal_eq]
    simp only [createProposalLocal_eq, getItem_setItem_same]
  · simp [localProposal, JsObj.get]
  · simp [localProposal, JsObj.get]
  · simp [localProposal, JsObj.get]

/-- The world after one more query was logged. -/
theorem query_eq (remote : Remote) (c : RemoteCall) (w : World) :
    query remote c w =
      (match remote w.calls c with
        | .ok r => .ok r
        | .error e => .error e, World.mk w.storage (w.calls ++ [c])) := by
  unfold query
  cases remote w.calls c <;> rfl

theorem createResponseLocal_calls (env : Env) (rd : JsObj) (w : World) :
    (createResponseLocal env rd w).2.calls = w.calls := by
  unfold createResponseLocal storedResponses
  cases hg : w.storage.getItem responsesKey with
  | none =>
    simp [bind, Js.bind, pure, Js.pure, getItem, setItem, hg, Json.asArray]
  | some v =>
    cases v with
    | obj o => simp [bind, Js.bind, pure, Js.pure, getItem, hg, Json.asArray, Js.throw]
    | arr ys =>
      simp [bind, Js.bind, pure, Js.pure, getItem, setItem, hg, Json.asArray]
      split <;> rfl

theorem getResponsesByAsker_none (f : JsVal) (w : World) :
    getResponsesByAsker none f w = getResponsesByAskerLocal f w := by
  unfold getResponsesByAsker Js.tryCatch getResponsesByAskerLocal storedResponses
  cases hg : w.storage.getItem responsesKey with
  | none => simp [bind, Js.bind, pure, Js.pure, getItem, hg, Json.asArray]
  | some v =>
    cases v <;> simp [bind, Js.bind, pure, Js.pure, getItem, hg, Json.asArray, Js.throw]

theorem getExistingResponse_none (p : JsVal) (w : World) (h : responsesOf w.storage ≠ none) :
    getExistingResponse none p w = getExistingResponseLocal p w := by
  unfold responsesOf at h
  unfold getExistingResponse Js.tryCatch getExistingResponseLocal storedResponses
  cases hg : w.storage.getItem responsesKey with
  | none => simp [bind, Js.bind, pure, Js.pure, getItem, hg, Json.asArray]
  | some v =>
    cases v with
    | obj o => simp [hg] at h
    | arr ys => simp [bind, Js.bind, pure, Js.pure, getItem, hg, Json.asArray]

/-- C5 as stated fails: with a remote handle whose select reports an error of code `500`
and a fallback list holding an `OUI` response for `p1`, `getExistingResponse('p1')`
returns `null`, not the record its local counterpart returns. -/
theorem getExistingResponse_error_returns_null :
    reportsErrorOtherThanNoRow (failingRemote [] (.selectOui (.str (js "p1")))) = true ∧
    (getExistingResponse (some failingRemote) (.str (js "p1"))
      (World.mk [(responsesKey, .arr [[(.proposal_id, .str (js "p1")), (.response, OUI)]])] [])).1
      = .ok none ∧
    (getExistingResponseLocal (.str (js "p1"))
      (World.mk [(responsesKey, .arr [[(.proposal_id, .str (js "p1")), (.response, OUI)]])] [])).1
      = .ok (some (.obj [(.proposal_id, .str (js "p1")), (.response, OUI)])) :=
  ⟨rfl, rfl, rfl⟩

/-- C5, amended. With a remote handle set: when its query reports an error (for the
single-row select, one other than `PGRST116`), `createProposal`,
`getProposalByUniqueId` and `getResponsesByAsker` return what their local counterpart
returns on the same arguments and storage; `createResponse` returns what
`createResponseLocal` returns whatever the remote store answers; and
`getExistingResponse` returns `null`. -/
theorem remote_error_falls_back (remote : Remote) (env : Env)
    (proposalData responseData : JsObj) (uniqueUrlId proposalId fromName : JsVal) (w : World) :
    (reportsError (remote w.calls (.insertProposal (proposalRow env proposalData))) = true →
      createProposal (some remote) env proposalData w =
        createProposalLocal env proposalData
          (World.mk w.storage (w.calls ++ [.insertProposal (proposalRow env proposalData)]))) ∧
    (reportsErrorOtherThanNoRow
        (remote w.calls (.selectProposal (.str (sanitizeInput uniqueUrlId)))) = true →
      getProposalByUniqueId (some remote) uniqueUrlId w =
        getProposalLocal uniqueUrlId
          (World.mk w.storage (w.calls ++ [.selectProposal (.str (sanitizeInput uniqueUrlId))]))) ∧
    createResponse (some remote) env responseData w = createResponseLocal env responseData w ∧
    (reportsErrorOtherThanNoRow (remote w.calls (.selectOui proposalId)) = true →
      getExistingResponse (some remote) proposalId w =
        (.ok none, World.mk w.storage (w.calls ++ [.selectOui proposalId]))) ∧
    (reportsError (remote w.calls (.selectByAsker (.str (sanitizeInput fromName)))) = true →
      getResponsesByAsker (some remote) fromName w =
        getResponsesByAskerLocal fromName
          (World.mk w.storage (w.calls ++ [.selectByAsker (.str (sanitizeInput fromName))]))) := by
  refine ⟨?_, ?_, createResponse_eq_local _ _ _ _, ?_, ?_⟩
  · intro h
    unfold createProposal Js.tryCatch
    simp only [bind, Js.bind, query_eq]
    cases hr : remote w.calls (.insertProposal (proposalRow env proposalData)) with
    | error e => simp
    | ok r =>
      cases he : r.error with
      | none => simp [reportsError, hr, he] at h
      | some e => simp [Js.throw, he]
  · intro h
    unfold getProposalByUniqueId Js.tryCatch
    simp only [bind, Js.bind, query_eq]
    cases hr : remote w.calls (.selectProposal (.str (sanitizeInput uniqueUrlId))) with
    | error e => simp
    | ok r =>
      cases he : r.error with
      | none => simp [reportsErrorOtherThanNoRow, hr, he] at h
      | some e =>
        simp [reportsErrorOtherThanNoRow, hr, he] at h
        simp [Js.throw, h, he]
  · intro h
    unfold getExistingResponse Js.tryCatch
    simp only [bind, Js.bind, query_eq]
    cases hr : remote w.calls (.selectOui proposalId) with
    | error e => simp [pure, Js.pure]
    | ok r =>
      cases he : r.error with
      | none => simp [reportsErrorOtherThanNoRow, hr, he] at h
      | some e =>
        simp [reportsErrorOtherThanNoRow, hr, he] at h
        simp [pure, Js.pure, h, he]
  · intro h
    unfold getResponsesByAsker Js.tryCatch
    simp only [bind, Js.bind, query_eq]
    cases hr : remote w.calls (.selectByAsker (.str (sanitizeInput fromName))) with
    | error e => simp
    | ok r =>
      cases he : r.error with
      | none => simp [reportsError, hr, he] at h
      | some e => simp [Js.throw, he]

/-- C5 amended, at a concrete input: the remote client that reports an error on every
query, an empty store. -/
theorem remote_error_falls_back_witness :
    createProposal (some failingRemote) exampleEnv
        [(.fromName, .str (js "Alice")), (.toName, .str (js "Bob"))] (World.mk [] []) =
      createProposalLocal exampleEnv
        [(.fromName, .str (js "Alice")), (.toName, .str (js "Bob"))]
        (World.mk [] [.insertProposal (proposalRow exampleEnv
          [(.fromName, .str (js "Alice")), (.toName, .str (js "Bob"))])]) :=
  (remote_error_falls_back failingRemote exampleEnv
    [(.fromName, .str (js "Alice")), (.toName, .str (js "Bob"))] [] .null .null .null
    (World.mk [] [])).1 rfl

/-- C6. With a remote handle set, `createResponse` sends no query to the remote store:
whatever the store would answer, the call does exactly what `createResponseLocal` does
on the same argument, and the log of remote queries is unchanged. -/
theorem createResponse_never_queries_remote (remote : Remote) (env : Env)
    (responseData : JsObj) (w : World) :
    createResponse (some remote) env responseData w = createResponseLocal env responseData w ∧
    (createResponse (some remote) env responseData w).2.calls = w.calls := by
  rw [createResponse_eq_local]
  exact ⟨rfl, createResponseLocal_calls env responseData w⟩

/-- On a store whose `'valentine_responses'` entry is not an array,
`getExistingResponseLocal` throws at `.find` and `getExistingResponse` catches it and
returns `null`. -/
theorem getExistingResponse_none_not_array (p : JsVal) (w : World)
    (h : responsesOf w.storage = none) :
    getExistingResponse none p w = (.ok none, w) ∧
    getExistingResponseLocal p w = (.error .typeError, w) := by
  unfold responsesOf at h
  unfold getExistingResponse Js.tryCatch getExistingResponseLocal storedResponses
  cases hg : w.storage.getItem responsesKey with
  | none => simp [hg] at h
  | some v =>
    cases v with
    | obj o =>
      simp [bind, Js.bind, pure, Js.pure, getItem, hg, Json.asArray, Js.throw]
    | arr ys => simp [hg] at h

/-- C7 as stated fails: with no remote handle and an object (not an array) stored under
`'valentine_responses'`, `getExistingResponse('p1')` returns `null` while
`getExistingResponseLocal('p1')` throws a `TypeError`. -/
theorem getExistingResponse_differs_from_local :
    getExistingResponse none (.str (js "p1")) (World.mk [(responsesKey, .obj [])] [])
      = (.ok none, World.mk [(responsesKey, .obj [])] []) ∧
    getExistingResponseLocal (.str (js "p1")) (World.mk [(responsesKey, .obj [])] [])
      = (.error .typeError, World.mk [(responsesKey, .obj [])] []) :=
  ⟨rfl, rfl⟩

/-- C7, amended. Without a remote handle `createProposal`, `getProposalByUniqueId`,
`createResponse` and `getResponsesByAsker` are their local counterparts, in result and
in effect on the state, for every argument and every store; `getExistingResponse` is
`getExistingResponseLocal` on every store whose `'valentine_responses'` entry, if any,
is an array, and on any other store it returns `null` and leaves the state unchanged
where `getExistingResponseLocal` throws a `TypeError`. -/
theorem uninitialised_handle_is_local (env : Env) (proposalData responseData : JsObj)
    (uniqueUrlId proposalId fromName : JsVal) (w : World) :
    createProposal none env proposalData w = createProposalLocal env proposalData w ∧
    getProposalByUniqueId none uniqueUrlId w = getProposalLocal uniqueUrlId w ∧
    createResponse none env responseData w = createResponseLocal env responseData w ∧
    (responsesOf w.storage ≠ none →
      getExistingResponse none proposalId w = getExistingResponseLocal proposalId w) ∧
    getResponsesByAsker none fromName w = getResponsesByAskerLocal fromName w ∧
    (responsesOf w.storage = none →
      getExistingResponse none proposalId w = (.ok none, w) ∧
      getExistingResponseLocal proposalId w = (.error .typeError, w)) :=
  ⟨createProposal_none env proposalData w, getProposalByUniqueId_none uniqueUrlId w,
    createResponse_eq_local none env responseData w,
    getExistingResponse_none proposalId w, getResponsesByAsker_none fromName w,
    getExistingResponse_none_not_array proposalId w⟩

/-- C7, at a concrete input: a store holding one `OUI` response for `p1`. -/
theorem uninitialised_handle_is_local_witness :
    getExistingResponse none (.str (js "p1"))
        (World.mk [(responsesKey, .arr [[(.proposal_id, .str (js "p1")), (.response, OUI)]])] [])
      = getExistingResponseLocal (.str (js "p1"))
        (World.mk [(responsesKey, .arr [[(.proposal_id, .str (js "p1")), (.response, OUI)]])] []) :=
  (uninitialised_handle_is_local exampleEnv [] [] .null (.str (js "p1")) .null
    (World.mk [(responsesKey, .arr [[(.proposal_id, .str (js "p1")), (.response, OUI)]])] [])).2.2.2.1
    (by decide)

/-! ### Sanitisation -/

theorem run_unit_nil (p : Nat → Bool) (prev : Option Nat) :
    (Regex.unit p).run prev [] = [] := rfl

theorem run_unit_cons (p : Nat → Bool) (prev : Option Nat) (c : Nat) (t : JsString) :
    (Regex.unit p).run prev (c :: t) = if p c then [(some c, t)] else [] := rfl

theorem run_seq (a b : Regex) (prev : Option Nat) (s : JsString) :
    (Regex.seq a b).run prev s = (a.run prev s).flatMap (fun st => b.run st.1 st.2) := rfl

theorem run_eps (prev : Option Nat) (s : JsString) : Regex.eps.run prev s = [(prev, s)] := rfl

theorem run_star (a : Regex) (prev : Option Nat) (s : JsString) :
    (Regex.star a).run prev s = starLoop a.run s.length prev s := rfl

/-- The tail `[^>]*>` of the tag pattern finds the first `>`. -/
theorem tagTail_run (t : JsString) (n : Nat) (prev : Option Nat) (hn : t.length ≤ n) :
    (starLoop (Regex.notChar '>').run n prev t).flatMap
        (fun st => (Regex.seq (.lit '>') .eps).run st.1 st.2)
      = match afterFirstGt t with
        | some r => [(some 62, r)]
        | none => [] := by
  induction t generalizing n prev with
  | nil =>
    cases n <;>
      simp [starLoop, Regex.notChar, Regex.lit, run_unit_nil, run_seq, afterFirstGt]
  | cons c t ih =>
    cases n with
    | zero => simp at hn
    | succ m =>
      have hm : t.length ≤ m := by simpa using hn
      by_cases hc : c = 62
      · subst hc
        simp [starLoop, Regex.notChar, Regex.lit, run_unit_cons, run_seq, run_eps, afterFirstGt]
      · have := ih m (some c) hm
        simp [starLoop, Regex.notChar, Regex.lit, run_unit_cons, run_seq, run_eps, afterFirstGt,
          hc, List.flatMap_append]
        simpa [Regex.notChar, Regex.lit, run_seq, run_eps] using this


/-- How the tag pattern `<[^>]*>` matches at a position. -/
theorem tagRe_run (prev : Option Nat) (s : JsString) :
    tagRe.run prev s =
      match s with
      | [] => []
      | c :: t =>
        if c = 60 then
          match afterFirstGt t with
          | some r => [(some 62, r)]
          | none => []
        else [] := by
  cases s with
  | nil => simp [tagRe, Regex.seqAll, run_seq, Regex.lit, run_unit_nil]
  | cons c t =>
    by_cases hc : c = 60
    · subst hc
      have := tagTail_run t t.length (some 60) (le_refl _)
      simp only [tagRe, Regex.seqAll, run_seq, Regex.lit, run_unit_cons, run_star]
      simpa [Regex.lit, run_seq] using this
    · simp [tagRe, Regex.seqAll, run_seq, Regex.lit, run_unit_cons, hc]

theorem afterFirstGt_some (t r : JsString) (h : afterFirstGt t = some r) :
    r.length < t.length ∧ ∀ x ∈ r, x ∈ t := by
  induction t with
  | nil => simp [afterFirstGt] at h
  | cons c t ih =>
    by_cases hc : c = 62
    · simp [afterFirstGt, hc] at h
      subst h
      exact ⟨by simp, fun x hx => List.mem_cons_of_mem _ hx⟩
    · simp [afterFirstGt, hc] at h
      obtain ⟨h1, h2⟩ := ih h
      exact ⟨by simp; omega, fun x hx => List.mem_cons_of_mem _ (h2 x hx)⟩

theorem afterFirstGt_none (t : JsString) (h : afterFirstGt t = none) : 62 ∉ t := by
  induction t with
  | nil => simp
  | cons c t ih =>
    by_cases hc : c = 62
    · simp [afterFirstGt, hc] at h
    · simp [afterFirstGt, hc] at h
      simp [ih h, Ne.symm hc]

theorem tagRe_exec_some (prev p' : Option Nat) (s s' : JsString)
    (h : tagRe.exec prev s = some (p', s')) :
    s'.length < s.length ∧ ∀ x ∈ s', x ∈ s := by
  unfold Regex.exec at h
  rw [tagRe_run] at h
  cases s with
  | nil => simp at h
  | cons c t =>
    by_cases hc : c = 60
    · simp only [hc, if_true] at h
      cases ha : afterFirstGt t with
      | none => simp [ha] at h
      | some r =>
        simp [ha] at h
        obtain ⟨h1, h2⟩ := afterFirstGt_some t r ha
        rw [← h.2]
        exact ⟨by simp; omega, fun x hx => List.mem_cons_of_mem _ (h2 x hx)⟩
    · simp [hc] at h

theorem tagRe_exec_none (prev : Option Nat) (t : JsString)
    (h : tagRe.exec prev (60 :: t) = none) : 62 ∉ t := by
  unfold Regex.exec at h
  rw [tagRe_run] at h
  cases ha : afterFirstGt t with
  | none => exact afterFirstGt_none t ha
  | some r => simp [ha] at h

theorem mem_replaceAllFrom_tagRe (n : Nat) (prev : Option Nat) (s : JsString) (x : Nat)
    (h : x ∈ replaceAllFrom tagRe n prev s) : x ∈ s := by
  induction n generalizing prev s with
  | zero => simpa [replaceAllFrom] using h
  | succ n ih =>
    unfold replaceAllFrom at h
    cases he : tagRe.exec prev s with
    | none =>
      rw [he] at h
      cases s with
      | nil => simp at h
      | cons c t =>
        simp only [List.mem_cons] at h ⊢
        rcases h with h | h
        · exact Or.inl h
        · exact Or.inr (ih _ _ h)
    | some st =>
      obtain ⟨p', s'⟩ := st
      rw [he] at h
      obtain ⟨hlt, hsub⟩ := tagRe_exec_some prev p' s s' he
      simp only [hlt, if_true] at h
      exact hsub x (ih _ _ h)

/-- Removing every tag leaves no `<` with a `>` after it. -/
theorem replaceAllFrom_tagRe_noTag (n : Nat) (prev : Option Nat) (s : JsString)
    (hn : s.length < n) (a b c : JsString) :
    replaceAllFrom tagRe n prev s ≠ a ++ 60 :: (b ++ 62 :: c) := by
  induction n generalizing prev s a with
  | zero => simp at hn
  | succ n ih =>
    unfold replaceAllFrom
    cases he : tagRe.exec prev s with
    | none =>
      cases s with
      | nil => simp
      | cons x t =>
        simp only
        intro heq
        cases a with
        | nil =>
          simp only [List.nil_append, List.cons.injEq] at heq
          obtain ⟨hx, ht⟩ := heq
          subst hx
          have h62 : 62 ∈ replaceAllFrom tagRe n (some 60) t := by rw [ht]; simp
          exact tagRe_exec_none prev t he (mem_replaceAllFrom_tagRe _ _ _ _ h62)
        | cons y a' =>
          simp only [List.cons_append, List.cons.injEq] at heq
          exact ih (some x) t (by simpa using hn) a' heq.2
    | some st =>
      obtain ⟨p', s'⟩ := st
      obtain ⟨hlt, _⟩ := tagRe_exec_some prev p' s s' he
      simp only [hlt, if_true]
      exact ih p' s' (by omega) a

/-- C8. The output of `sanitizeInput` contains no HTML tag: for every input, no
substring of the output starts with `<` and ends with a later `>`. -/
theorem sanitizeInput_no_tag (input : JsVal) : ¬ ContainsTag (sanitizeInput input) := by
  rintro ⟨a, b, c, h⟩
  unfold sanitizeInput at h
  by_cases ht : input.truthy = true
  · simp only [ht, Bool.not_true, Bool.false_eq_true, if_false, substring0] at h
    have hsplit := List.take_append_drop 50
      (replaceAll tagRe (replaceAll scriptRe (trim input.toJsString)))
    rw [h] at hsplit
    generalize List.drop 50 (replaceAll tagRe (replaceAll scriptRe (trim input.toJsString)))
      = rest at hsplit
    refine replaceAllFrom_tagRe_noTag ((replaceAll scriptRe (trim input.toJsString)).length + 1)
      none (replaceAll scriptRe (trim input.toJsString)) (Nat.lt_succ_self _) a b
      (c ++ rest) ?_
    show replaceAll tagRe _ = _
    rw [← hsplit]
    simp
  · simp [ht] at h

/-- C9. `sanitizeInput` returns at most 50 code units for every input, and the empty
string for every falsy input. -/
theorem sanitizeInput_length_le (input : JsVal) :
    (sanitizeInput input).length ≤ 50 ∧
    (input.truthy = false → sanitizeInput input = []) := by
  unfold sanitizeInput
  constructor
  · split
    · simp
    · simp [substring0, List.length_take]
  · intro h
    simp [h]

/-- C9, on falsy inputs: `undefined`, `null`, the empty string and `0`. -/
theorem sanitizeInput_length_le_witness :
    sanitizeInput .undefined = [] ∧ sanitizeInput .null = [] ∧
    sanitizeInput (.str []) = [] ∧ sanitizeInput (.num 0) = [] :=
  ⟨(sanitizeInput_length_le .undefined).2 rfl, (sanitizeInput_length_le .null).2 rfl,
    (sanitizeInput_length_le (.str [])).2 rfl, (sanitizeInput_length_le (.num 0)).2 rfl⟩

theorem js_openScript : js "<script>" = [60, 115, 99, 114, 105, 112, 116, 62] := by decide

theorem js_closeScript : js "</script>" = [60, 47, 115, 99, 114, 105, 112, 116, 62] := by decide

theorem lit_eq (c : Char) : Regex.lit c = .unit (fun x => x == c.toNat) := rfl

theorem closeScriptRe_run (prev : Option Nat) (t : JsString) :
    closeScriptRe.run prev (60 :: 47 :: 115 :: 99 :: 114 :: 105 :: 112 :: 116 :: 62 :: t)
      = [(some 62, t)] := by
  simp [closeScriptRe, Regex.seqAll, run_seq, run_unit_cons, run_eps, Regex.lit, Regex.litCI]


/-- Greedy `[class]*` tries the longest run of the class first. -/
theorem starLoop_unit_munch (p : Nat → Bool) (xs rest : JsString) (n : Nat) (prev : Option Nat)
    (hp : ∀ x ∈ xs, p x = true) (hrest : ∀ x, rest.head? = some x → p x = false)
    (hn : (xs ++ rest).length ≤ n) :
    ∃ p' tl, starLoop (Regex.unit p).run n prev (xs ++ rest) = (p', rest) :: tl := by
  induction xs generalizing n prev with
  | nil =>
    cases n with
    | zero => exact ⟨prev, [], rfl⟩
    | succ m =>
      cases rest with
      | nil => exact ⟨prev, [], by simp [starLoop, run_unit_nil]⟩
      | cons y ys =>
        have hy : p y = false := hrest y rfl
        exact ⟨prev, [], by simp [starLoop, run_unit_cons, hy]⟩
  | cons x xs ih =>
    cases n with
    | zero => simp at hn
    | succ m =>
      have hx : p x = true := hp x (List.mem_cons_self _ _)
      obtain ⟨p', tl, h⟩ := ih m (some x) (fun y hy => hp y (List.mem_cons_of_mem _ hy))
        (by simpa using hn)
      refine ⟨p', tl ++ [(prev, x :: xs ++ rest)], ?_⟩
      simp [starLoop, run_unit_cons, hx, h]

theorem run_notAhead (a : Regex) (prev : Option Nat) (s : JsString) :
    (Regex.notAhead a).run prev s = if (a.run prev s).isEmpty then [(prev, s)] else [] := rfl

theorem run_wordBoundary (prev : Option Nat) (s : JsString) :
    Regex.wordBoundary.run prev s =
      if isWordChar prev != isWordChar s.head? then [(prev, s)] else [] := rfl

theorem starLoop_succ (step : Option Nat → JsString → List Pos) (n : Nat) (prev : Option Nat)
    (s : JsString) :
    starLoop step (n + 1) prev s =
      (((step prev s).filter (fun st => decide (st.2.length < s.length))).flatMap
        (fun st => starLoop step n st.1 st.2)) ++ [(prev, s)] := rfl

/-- An iteration that cannot start leaves `*` with the empty iteration only. -/
theorem run_star_of_nil (a : Regex) (prev : Option Nat) (s : JsString)
    (h : a.run prev s = []) : (Regex.star a).run prev s = [(prev, s)] := by
  rw [run_star]
  cases hl : s.length with
  | zero => rfl
  | succ n => rw [starLoop_succ, h]; rfl

/-- After the script body, the rest of the script pattern,
`(?:(?!<\/script>)<[^<]*)*<\/script>`, stops at a closing tag that is there. -/
theorem scriptTail_run (prev : Option Nat) (t : JsString) :
    (Regex.seqAll
        [.star (.seqAll [.notAhead closeScriptRe, .lit '<', .star (.notChar '<')]),
          closeScriptRe]).run prev
        (60 :: 47 :: 115 :: 99 :: 114 :: 105 :: 112 :: 116 :: 62 :: t)
      = [(some 62, t)] := by
  have hgroup : (Regex.seqAll [.notAhead closeScriptRe, .lit '<', .star (.notChar '<')]).run
      prev (60 :: 47 :: 115 :: 99 :: 114 :: 105 :: 112 :: 116 :: 62 :: t) = [] := by
    rw [Regex.seqAll, run_seq, run_notAhead, closeScriptRe_run]
    rfl
  rw [Regex.seqAll, run_seq, run_star_of_nil _ _ _ hgroup]
  simp only [List.flatMap_cons, List.flatMap_nil, List.append_nil, Regex.seqAll, run_seq,
    closeScriptRe_run, run_eps]

/-- The opening `<script\b` of the script pattern on the text `<script>`. -/
theorem scriptOpen_run (k : Regex) (rest : JsString) :
    (Regex.seq (.lit '<') (.seq (.litCI 's') (.seq (.litCI 'c') (.seq (.litCI 'r')
        (.seq (.litCI 'i') (.seq (.litCI 'p') (.seq (.litCI 't')
          (.seq .wordBoundary k)))))))).run none
        (60 :: 115 :: 99 :: 114 :: 105 :: 112 :: 116 :: 62 :: rest)
      = k.run (some 116) (62 :: rest) := by
  simp [run_seq, run_unit_cons, Regex.lit, Regex.litCI, run_wordBoundary, isWordChar]

/-- The script pattern matches a script block whose body holds no `<` up to the end of
its closing tag. -/
theorem scriptRe_exec_block (b t : JsString) (hb : 60 ∉ b) :
    scriptRe.exec none (js "<script>" ++ b ++ js "</script>" ++ t) = some (some 62, t) := by
  obtain ⟨p', tl, hm⟩ := starLoop_unit_munch (fun x => x != 60) (62 :: b)
    (60 :: 47 :: 115 :: 99 :: 114 :: 105 :: 112 :: 116 :: 62 :: t)
    ((62 :: b) ++ (60 :: 47 :: 115 :: 99 :: 114 :: 105 :: 112 :: 116 :: 62 :: t)).length
    (some 116)
    (by
      intro x hx
      rcases List.mem_cons.1 hx with h | h
      · subst h; decide
      · have : x ≠ 60 := fun h' => hb (h' ▸ h)
        simpa using this)
    (by intro x hx; simp at hx; subst hx; decide)
    (le_refl _)
  have htail := scriptTail_run p' t
  simp only [Regex.seqAll] at htail
  have hshape : js "<script>" ++ b ++ js "</script>" ++ t
      = 60 :: 115 :: 99 :: 114 :: 105 :: 112 :: 116 :: 62 ::
        (b ++ 60 :: 47 :: 115 :: 99 :: 114 :: 105 :: 112 :: 116 :: 62 :: t) := by
    simp [js_openScript, js_closeScript]
  unfold Regex.exec
  rw [hshape]
  simp only [scriptRe, Regex.seqAll]
  rw [scriptOpen_run, run_seq, run_star]
  have hc : Char.toNat '<' = 60 := rfl
  simp only [Regex.notChar, List.cons_append, hc] at hm htail ⊢
  rw [hm, List.flatMap_cons, htail]
  rfl


theorem trim_eq_self (s : JsString)
    (h1 : ∀ x, s.head? = some x → isWhiteSpace x = false)
    (h2 : ∀ x, s.getLast? = some x → isWhiteSpace x = false) : trim s = s := by
  unfold trim
  have e1 : s.dropWhile isWhiteSpace = s := by
    cases s with
    | nil => rfl
    | cons x r => simp [List.dropWhile_cons, h1 x rfl]
  rw [e1]
  have e2 : s.reverse.dropWhile isWhiteSpace = s.reverse := by
    cases hr : s.reverse with
    | nil => rfl
    | cons y r =>
      have : s.getLast? = some y := by
        rw [← List.head?_reverse, hr]; rfl
      simp [List.dropWhile_cons, h2 y this]
  rw [e2, List.reverse_reverse]

/-- Both patterns of `sanitizeInput` start with a literal `<`. -/
theorem exec_none_of_head (k : Regex) (prev : Option Nat) (s : JsString)
    (h : ∀ x, s.head? = some x → x ≠ 60) :
    (Regex.seq (.lit '<') k).exec prev s = none := by
  unfold Regex.exec
  cases s with
  | nil => simp [run_seq, Regex.lit, run_unit_nil]
  | cons x r =>
    have : x ≠ 60 := h x rfl
    simp [run_seq, Regex.lit, run_unit_cons, this]

/-- Where the text holds no `<`, a pattern that starts with `<` removes nothing. -/
theorem replaceAllFrom_of_no_lt (k : Regex) (n : Nat) (prev : Option Nat) (s : JsString)
    (h : 60 ∉ s) : replaceAllFrom (Regex.seq (.lit '<') k) n prev s = s := by
  induction n generalizing prev s with
  | zero => rfl
  | succ n ih =>
    unfold replaceAllFrom
    rw [exec_none_of_head k prev s (by
      intro x hx
      cases s with
      | nil => simp at hx
      | cons y r =>
        simp at hx
        subst hx
        intro h'
        exact h (h' ▸ List.mem_cons_self _ _))]
    cases s with
    | nil => rfl
    | cons y r =>
      simp only
      rw [ih (some y) r (fun h' => h (List.mem_cons_of_mem _ h'))]

/-- C10. `sanitizeInput` removes a script block together with its content: for every
body `b` without `<` and every text `t` of at most 50 code units without `<` and
without trailing whitespace, `sanitizeInput('<script>' + b + '</script>' + t)` is `t`
(that `t` holds no `>` and starts with no whitespace is not needed); in particular
`'<script>alert(1)</script>Bob'` yields `'Bob'`. -/
theorem sanitizeInput_script_block (b t : JsString) (hb : 60 ∉ b) (ht : 60 ∉ t)
    (hlen : t.length ≤ 50) (hend : ∀ x, t.getLast? = some x → isWhiteSpace x = false) :
    sanitizeInput (.str (js "<script>" ++ b ++ js "</script>" ++ t)) = t ∧
    sanitizeInput (.str (js "<script>alert(1)</script>Bob")) = js "Bob" := by
  refine ⟨?_, by decide⟩
  have hne : (js "<script>" ++ b ++ js "</script>" ++ t).isEmpty = false := by
    simp [js_openScript]
  have htrim : trim (js "<script>" ++ b ++ js "</script>" ++ t)
      = js "<script>" ++ b ++ js "</script>" ++ t := by
    apply trim_eq_self
    · intro x hx
      simp [js_openScript] at hx
      subst hx; decide
    · intro x hx
      rw [List.getLast?_append] at hx
      cases hl : t.getLast? with
      | some y =>
        rw [hl] at hx
        simp at hx
        subst hx
        exact hend y hl
      | none =>
        rw [hl] at hx
        simp [js_closeScript] at hx
        subst hx; decide
  have hscript : replaceAll scriptRe (js "<script>" ++ b ++ js "</script>" ++ t) = t := by
    unfold replaceAll
    unfold replaceAllFrom
    rw [scriptRe_exec_block b t hb]
    have hlt : t.length < (js "<script>" ++ b ++ js "</script>" ++ t).length := by
      simp [js_openScript, js_closeScript]; omega
    simp only [hlt, if_true]
    exact replaceAllFrom_of_no_lt _ _ _ t ht
  have htag : replaceAll tagRe t = t := replaceAllFrom_of_no_lt _ _ _ t ht
  unfold sanitizeInput
  simp only [JsVal.truthy, hne, JsVal.toJsString, htrim, hscript, htag, substring0]
  simpa using List.take_of_length_le hlen

/-- C10, at a concrete input: the body `alert(1)` followed by `Bob`. -/
theorem sanitizeInput_script_block_witness :
    sanitizeInput (.str (js "<script>" ++ js "alert(1)" ++ js "</script>" ++ js "Bob"))
      = js "Bob" :=
  (sanitizeInput_script_block (js "alert(1)") (js "Bob") (by decide) (by decide) (by decide)
    (by decide)).1

/-! ### Truncation, sanitised fields, declined attempts -/

theorem mem_of_mem_trim (s : JsString) (x : Nat) (h : x ∈ trim s) : x ∈ s := by
  unfold trim at h
  rw [List.mem_reverse] at h
  have h1 := (List.dropWhile_sublist isWhiteSpace).subset h
  rw [List.mem_reverse] at h1
  exact (List.dropWhile_sublist isWhiteSpace).subset h1

/-- C11 as stated fails: 51 spaces are longer than 50 characters, and `sanitizeInput`
returns the empty string for them (trimming comes before truncation). -/
theorem sanitizeInput_long_input_not_50 :
    50 < (List.replicate 51 32).length ∧
    (sanitizeInput (.str (List.replicate 51 32))).length ≠ 50 := by
  decide

/-- C11, amended. For every input string that holds no `<` and whose trimmed text is
longer than 50 code units, `sanitizeInput` returns the first 50 code units of the
trimmed text: a string of exactly 50. -/
theorem sanitizeInput_truncates (s : JsString) (hlt : 60 ∉ s) (hlen : 50 < (trim s).length) :
    sanitizeInput (.str s) = (trim s).take 50 ∧ (sanitizeInput (.str s)).length = 50 := by
  have hne : s.isEmpty = false := by
    cases s with
    | nil => simp [trim] at hlen
    | cons x r => rfl
  have ht : 60 ∉ trim s := fun h => hlt (mem_of_mem_trim s 60 h)
  have hscript : replaceAll scriptRe (trim s) = trim s := replaceAllFrom_of_no_lt _ _ _ _ ht
  have htag : replaceAll tagRe (trim s) = trim s := replaceAllFrom_of_no_lt _ _ _ _ ht
  have h1 : sanitizeInput (.str s) = (trim s).take 50 := by
    unfold sanitizeInput
    simp only [JsVal.truthy, hne, JsVal.toJsString, hscript, htag, substring0]
    rfl
  refine ⟨h1, ?_⟩
  rw [h1, List.length_take]
  omega

/-- C11 amended, at a concrete input: 51 letters `a`. -/
theorem sanitizeInput_truncates_witness :
    sanitizeInput (.str (List.replicate 51 97)) = (trim (List.replicate 51 97)).take 50 ∧
    (sanitizeInput (.str (List.replicate 51 97))).length = 50 :=
  sanitizeInput_truncates (List.replicate 51 97) (by decide) (by decide)

/-- C12. On the fallback path `createProposal` stores `from_email` as it was given, not
sanitized: the email `<b>a@b.c</b>` is stored and read back with its tags, while
`from_name` and `to_name` are sanitized and the row of the remote path carries
`sanitizeInput` of the email. -/
theorem createProposal_fallback_keeps_raw_email :
    ∃ P w₁,
      createProposal none exampleEnv
          [(.fromName, .str (js "Alice")), (.toName, .str (js "Bob")),
            (.fromEmail, .str (js "<b>a@b.c</b>"))] (World.mk [] [])
        = (.ok (some (.obj P)), w₁) ∧
      getProposalByUniqueId none (P.get .unique_url_id) w₁ = (.ok (some (.obj P)), w₁) ∧
      P.get .from_name = .str (sanitizeInput (.str (js "Alice"))) ∧
      P.get .to_name = .str (sanitizeInput (.str (js "Bob"))) ∧
      P.get .from_email = .str (js "<b>a@b.c</b>") ∧
      sanitizeInput (.str (js "<b>a@b.c</b>")) = js "a@b.c" ∧
      (proposalRow exampleEnv
          [(.fromName, .str (js "Alice")), (.toName, .str (js "Bob")),
            (.fromEmail, .str (js "<b>a@b.c</b>"))]).get .from_email
        = .str (js "a@b.c") :=
  ⟨_, _, rfl, rfl, by decide, by decide, by decide, by decide, by decide⟩

/-- The text `'NON_TENTATIVE'` is not the text `'OUI'`. -/
theorem nonTentative_ne_oui : JsVal.str (js "NON_TENTATIVE") ≠ OUI := by decide

/-- C13 as stated fails: once an `OUI` response is stored for `p1`, `createResponse` with
`'NON_TENTATIVE'` for `p1` returns `null` and stores nothing. -/
theorem createResponse_nonTentative_rejected_after_oui :
    createResponse none exampleEnv
        [(.proposalId, .str (js "p1")), (.response, .str (js "NON_TENTATIVE")),
          (.responderName, .str (js "Bob"))]
        (World.mk [(responsesKey, .arr [[(.proposal_id, .str (js "p1")), (.response, OUI)]])] [])
      = (.ok none,
        World.mk [(responsesKey, .arr [[(.proposal_id, .str (js "p1")), (.response, OUI)]])] []) :=
  rfl

/-- C13, amended. While the response list holds no `OUI` response for `proposalId`,
`createResponse` with `'NON_TENTATIVE'` returns a response record, and afterwards the
list still holds no `OUI` response for it, so a decline attempt can be repeated any
number of times; it does so for any remote handle. -/
theorem createResponse_nonTentative_accepted (supabase : Option Remote) (env : Env)
    (p responderName : JsVal) (w : World) (h : HoldsNoOui w.storage p) :
    ∃ r w₁,
      createResponse supabase env
          [(.proposalId, p), (.response, .str (js "NON_TENTATIVE")),
            (.responderName, responderName)] w
        = (.ok (some (.obj r)), w₁) ∧
      HoldsNoOui w₁.storage p := by
  obtain ⟨xs, hxs, hno⟩ := h
  have hfind : xs.find? (isOuiFor (JsObj.get
      [(.proposalId, p), (.response, .str (js "NON_TENTATIVE")),
        (.responderName, responderName)] .proposalId)) = none :=
    find_none_of_holdsNoOui xs p hno
  refine ⟨_, _, (createResponse_eq_local _ _ _ _).trans
    (createResponseLocal_fresh env _ w xs hxs hfind), ?_⟩
  refine ⟨_, responsesOf_setItem _ _, ?_⟩
  intro r hr
  rcases List.mem_append.1 hr with hr | hr
  · exact hno r hr
  · rw [List.mem_singleton] at hr
    subst hr
    intro hcontra
    have h2 : JsVal.str (js "NON_TENTATIVE") = OUI := by
      simpa [localResponse, JsObj.get] using hcontra.2
    exact nonTentative_ne_oui h2

/-- C13 amended, at a concrete input: an empty store, the proposal `p1`. -/
theorem createResponse_nonTentative_accepted_witness :
    HoldsNoOui (World.mk [] []).storage (.str (js "p1")) ∧
    ∃ r w₁,
      createResponse none exampleEnv
          [(.proposalId, .str (js "p1")), (.response, .str (js "NON_TENTATIVE")),
            (.responderName, .str (js "Bob"))] (World.mk [] [])
        = (.ok (some (.obj r)), w₁) ∧
      HoldsNoOui w₁.storage (.str (js "p1")) :=
  have h : HoldsNoOui (World.mk [] []).storage (.str (js "p1")) := ⟨[], rfl, by simp⟩
  ⟨h, createResponse_nonTentative_accepted none exampleEnv _ _ _ h⟩

/-- What `createResponseLocal` leaves in local storage: the store itself, or the store
with a new value under the key of the response list. -/
theorem createResponseLocal_storage (env : Env) (rd : JsObj) (w : World) :
    (createResponseLocal env rd w).2.storage = w.storage ∨
    ∃ v, (createResponseLocal env rd w).2.storage = w.storage.setItem responsesKey v := by
  unfold createResponseLocal storedResponses
  cases hg : w.storage.getItem responsesKey with
  | none =>
    right
    exact ⟨.arr [localResponse env rd],
      by simp [bind, Js.bind, pure, Js.pure, getItem, setItem, hg, Json.asArray]⟩
  | some v =>
    cases v with
    | obj o =>
      left
      simp [bind, Js.bind, pure, Js.pure, getItem, hg, Json.asArray, Js.throw]
    | arr ys =>
      by_cases hf : (List.find? (isOuiFor (rd.get .proposalId)) ys).isSome
      · left
        simp [bind, Js.bind, pure, Js.pure, getItem, setItem, hg, Json.asArray, hf]
      · right
        exact ⟨.arr (ys ++ [localResponse env rd]),
          by simp [bind, Js.bind, pure, Js.pure, getItem, setItem, hg, Json.asArray, hf]⟩

/-- The result of `getProposalByUniqueId` depends on the state only through the entry
under the key and the log of remote queries. -/
theorem getProposalByUniqueId_congr (supabase : Option Remote) (u : JsVal) (w w' : World)
    (hs : w'.storage.getItem u.toJsString = w.storage.getItem u.toJsString)
    (hc : w'.calls = w.calls) :
    (getProposalByUniqueId supabase u w').1 = (getProposalByUniqueId supabase u w).1 := by
  cases supabase with
  | none => rw [getProposalByUniqueId_none, getProposalByUniqueId_none,
      getProposalLocal_eq, getProposalLocal_eq, hs]
  | some remote =>
    unfold getProposalByUniqueId Js.tryCatch
    simp only [bind, Js.bind, query_eq, hc]
    cases hr : remote w.calls (.selectProposal (.str (sanitizeInput u))) with
    | error e => simp [getProposalLocal_eq, hs]
    | ok r =>
      cases he : r.error with
      | none => simp [he, pure, Js.pure]
      | some e =>
        by_cases hcode : e.get .code = PGRST116
        · simp [he, hcode, pure, Js.pure]
        · simp [he, hcode, Js.throw, getProposalLocal_eq, hs]

/-- C14. `createResponse` with `'NON_TENTATIVE'` leaves every proposal as it was: for
every key but that of the response list (the key of every proposal is such a key),
every store, and whatever remote handle either call uses, `getProposalByUniqueId`
returns the same before and after the call; the same holds for the key of any proposal
`createProposalLocal` writes. -/
theorem createResponse_nonTentative_keeps_proposal (s₁ s₂ : Option Remote) (env : Env)
    (p responderName uniqueUrlId : JsVal) (w : World)
    (hkey : uniqueUrlId.toJsString ≠ responsesKey) :
    (getProposalByUniqueId s₂ uniqueUrlId
        (createResponse s₁ env
          [(.proposalId, p), (.response, .str (js "NON_TENTATIVE")),
            (.responderName, responderName)] w).2).1
      = (getProposalByUniqueId s₂ uniqueUrlId w).1 ∧
    ∀ (env₀ : Env) (proposalData : JsObj),
      (getProposalByUniqueId s₂ ((localProposal env₀ proposalData).get .unique_url_id)
          (createResponse s₁ env
            [(.proposalId, p), (.response, .str (js "NON_TENTATIVE")),
              (.responderName, responderName)] w).2).1
        = (getProposalByUniqueId s₂ ((localProposal env₀ proposalData).get .unique_url_id) w).1 := by
  have key : ∀ u : JsVal, u.toJsString ≠ responsesKey →
      (getProposalByUniqueId s₂ u
        (createResponse s₁ env
          [(.proposalId, p), (.response, .str (js "NON_TENTATIVE")),
            (.responderName, responderName)] w).2).1
      = (getProposalByUniqueId s₂ u w).1 := by
    intro u hu
    rw [createResponse_eq_local]
    apply getProposalByUniqueId_congr
    · rcases createResponseLocal_storage env _ w with h | ⟨v, h⟩
      · rw [h]
      · rw [h, getItem_setItem_ne _ _ _ _ hu]
    · exact createResponseLocal_calls env _ w
  exact ⟨key uniqueUrlId hkey, fun env₀ pd => key _ (proposalKey_ne_responsesKey env₀ pd)⟩

/-- C14, at a concrete input: the proposal Alice created on an empty store. -/
theorem createResponse_nonTentative_keeps_proposal_witness :
    (getProposalByUniqueId none
        ((localProposal exampleEnv [(.fromName, .str (js "Alice"))]).get .unique_url_id)
        (createResponse none exampleEnv
          [(.proposalId, .str (js "local_1000")), (.response, .str (js "NON_TENTATIVE")),
            (.responderName, .str (js "Bob"))]
          (createProposal none exampleEnv [(.fromName, .str (js "Alice"))] (World.mk [] [])).2).2).1
      = (getProposalByUniqueId none
        ((localProposal exampleEnv [(.fromName, .str (js "Alice"))]).get .unique_url_id)
        (createProposal none exampleEnv [(.fromName, .str (js "Alice"))] (World.mk [] [])).2).1 :=
  (createResponse_nonTentative_keeps_proposal none none exampleEnv _ _ _ _
    (proposalKey_ne_responsesKey exampleEnv [(.fromName, .str (js "Alice"))])).1

/-! ### Lookups on the fallback store -/

/-- What `getExistingResponseLocal` does on a store whose response list is `xs`. -/
theorem getExistingResponseLocal_of (p : JsVal) (w : World) (xs : List JsObj)
    (h : responsesOf w.storage = some xs) :
    getExistingResponseLocal p w = (.ok ((xs.find? (isOuiFor p)).map Json.obj), w) := by
  unfold responsesOf at h
  unfold getExistingResponseLocal storedResponses
  cases hg : w.storage.getItem responsesKey with
  | none =>
    rw [hg] at h
    injection h with h
    subst h
    simp [bind, Js.bind, pure, Js.pure, getItem, hg, Json.asArray]
  | some v =>
    rw [hg] at h
    cases v with
    | obj o => simp at h
    | arr ys =>
      simp at h
      subst h
      simp [bind, Js.bind, pure, Js.pure, getItem, hg, Json.asArray]

/-- C15. On the fallback store with response list `xs`, `getExistingResponse(p)` returns
the earliest record of `xs` whose `proposal_id` is `p` and whose response is `'OUI'`,
and `null` exactly when `xs` holds no such record; right after a `createResponse` with
`'OUI'` for `p` returned the record `r`, it returns `r`. -/
theorem getExistingResponse_fallback (p : JsVal) (w : World) (xs : List JsObj)
    (h : responsesOf w.storage = some xs) :
    getExistingResponse none p w = (.ok ((xs.find? (isOuiFor p)).map Json.obj), w) ∧
    (∀ r, xs.find? (isOuiFor p) = some r →
      r.get .proposal_id = p ∧ r.get .response = OUI ∧
      ∃ before after, xs = before ++ r :: after ∧
        ∀ q ∈ before, ¬ (q.get .proposal_id = p ∧ q.get .response = OUI)) ∧
    (xs.find? (isOuiFor p) = none ↔
      ∀ r ∈ xs, ¬ (r.get .proposal_id = p ∧ r.get .response = OUI)) ∧
    (∀ (supabase : Option Remote) (env : Env) (responderName : JsVal) (r : JsObj) (w₁ : World),
      createResponse supabase env
          [(.proposalId, p), (.response, OUI), (.responderName, responderName)] w
        = (.ok (some (.obj r)), w₁) →
      getExistingResponse none p w₁ = (.ok (some (.obj r)), w₁)) := by
  have hne : responsesOf w.storage ≠ none := by rw [h]; simp
  refine ⟨?_, ?_, ?_, ?_⟩
  · rw [getExistingResponse_none p w hne, getExistingResponseLocal_of p w xs h]
  · intro r hr
    have hp := List.find?_some hr
    obtain ⟨before, after, hsplit, hbefore⟩ := (List.find?_eq_some.1 hr).2
    have hp' : r.get .proposal_id = p ∧ r.get .response = OUI := by
      simpa [isOuiFor] using hp
    refine ⟨hp'.1, hp'.2, before, after, hsplit, ?_⟩
    intro q hq
    have := hbefore q hq
    simp [isOuiFor] at this
    tauto
  · rw [List.find?_eq_none]
    constructor
    · intro hall r hr
      have := hall r hr
      simpa [isOuiFor] using this
    · intro hall r hr
      have := hall r hr
      simpa [isOuiFor] using this
  · intro supabase env responderName r w₁ hcall
    rw [createResponse_eq_local, createResponseLocal_of _ _ w xs h] at hcall
    simp only [JsObj.get, if_true, reduceCtorEq, if_false] at hcall
    cases hf : xs.find? (isOuiFor p) with
    | some r₀ => simp [hf] at hcall
    | none =>
      simp only [hf, Option.isSome_none, Bool.false_eq_true, if_false, Prod.mk.injEq,
        Except.ok.injEq, Option.some.injEq, Json.obj.injEq] at hcall
      obtain ⟨hr, hw⟩ := hcall
      subst hw
      subst hr
      have hxs₁ : responsesOf (World.mk (w.storage.setItem responsesKey
          (.arr (xs ++ [localResponse env
            [(.proposalId, p), (.response, OUI), (.responderName, responderName)]]))) w.calls).storage
          = some (xs ++ [localResponse env
            [(.proposalId, p), (.response, OUI), (.responderName, responderName)]]) :=
        responsesOf_setItem _ _
      rw [getExistingResponse_none p _ (by rw [hxs₁]; simp), getExistingResponseLocal_of p _ _ hxs₁]
      have hmatch : isOuiFor p (localResponse env
          [(.proposalId, p), (.response, OUI), (.responderName, responderName)]) = true := by
        rw [isOuiFor_localResponse]; simp [JsObj.get]
      simp [List.find?_append, hf, hmatch]

/-- C15, at a concrete input: a list with a declined attempt and two `OUI` records for
`p1`; the earlier `OUI` record is returned. -/
theorem getExistingResponse_fallback_witness :
    getExistingResponse none (.str (js "p1"))
        (World.mk [(responsesKey, .arr
          [[(.proposal_id, .str (js "p1")), (.response, .str (js "NON_TENTATIVE"))],
           [(.proposal_id, .str (js "p1")), (.response, OUI), (.responder_name, .str (js "Bob"))],
           [(.proposal_id, .str (js "p1")), (.response, OUI), (.responder_name, .str (js "Eve"))]])] [])
      = (.ok (some (.obj
          [(.proposal_id, .str (js "p1")), (.response, OUI), (.responder_name, .str (js "Bob"))])),
        World.mk [(responsesKey, .arr
          [[(.proposal_id, .str (js "p1")), (.response, .str (js "NON_TENTATIVE"))],
           [(.proposal_id, .str (js "p1")), (.response, OUI), (.responder_name, .str (js "Bob"))],
           [(.proposal_id, .str (js "p1")), (.response, OUI), (.responder_name, .str (js "Eve"))]])] []) :=
  (getExistingResponse_fallback (.str (js "p1"))
    (World.mk [(responsesKey, .arr
      [[(.proposal_id, .str (js "p1")), (.response, .str (js "NON_TENTATIVE"))],
       [(.proposal_id, .str (js "p1")), (.response, OUI), (.responder_name, .str (js "Bob"))],
       [(.proposal_id, .str (js "p1")), (.response, OUI), (.responder_name, .str (js "Eve"))]])] [])
    [[(.proposal_id, .str (js "p1")), (.response, .str (js "NON_TENTATIVE"))],
     [(.proposal_id, .str (js "p1")), (.response, OUI), (.responder_name, .str (js "Bob"))],
     [(.proposal_id, .str (js "p1")), (.response, OUI), (.responder_name, .str (js "Eve"))]]
    rfl).1

/-- C16. On the fallback store `getProposalByUniqueId` returns whatever entry the key
holds: after one recorded response, `getProposalByUniqueId('valentine_responses')`
returns the response list, and after `Storage.setWithExpiry('user_session_id', ...)`,
`getProposalByUniqueId('user_session_id')` returns the session entry; neither key is
the `unique_url_id` of a proposal. -/
theorem getProposalByUniqueId_returns_other_entries :
    (∃ r w₁,
      createResponse none exampleEnv
          [(.proposalId, .str (js "p1")), (.response, OUI), (.responderName, .str (js "Bob"))]
          (World.mk [] [])
        = (.ok (some (.obj r)), w₁) ∧
      getProposalByUniqueId none (.str (js "valentine_responses")) w₁
        = (.ok (some (.arr [r])), w₁)) ∧
    (getProposalByUniqueId none (.str (js "user_session_id"))
        (setWithExpiry 1000 (js "user_session_id") (.str (js "session_1")) 86400000
          (World.mk [] [])).2).1
      = .ok (some (.obj [(.data, .str (js "session_1")), (.expiry, .num 86401000)])) :=
  ⟨⟨_, _, rfl, rfl⟩, rfl⟩

/-- What `getResponsesByAskerLocal` does on a store whose response list is `xs`. -/
theorem getResponsesByAskerLocal_of (f : JsVal) (w : World) (xs : List JsObj)
    (h : responsesOf w.storage = some xs) :
    getResponsesByAskerLocal f w =
      (.ok (some (.arr (xs.filter (fun r => r.get .askerName == .str (sanitizeInput f))))), w) := by
  unfold responsesOf at h
  unfold getResponsesByAskerLocal storedResponses
  cases hg : w.storage.getItem responsesKey with
  | none =>
    rw [hg] at h
    injection h with h
    subst h
    simp [bind, Js.bind, pure, Js.pure, getItem, hg, Json.asArray]
  | some v =>
    rw [hg] at h
    cases v with
    | obj o => simp at h
    | arr ys =>
      simp at h
      subst h
      simp [bind, Js.bind, pure, Js.pure, getItem, hg, Json.asArray]

/-- C17. On the fallback store `getResponsesByAsker` finds nothing: after Alice created
a proposal for Bob on an empty store and the `OUI` response to it was recorded,
`getResponsesByAsker('Alice')` returns the empty array, whatever the readings of the
calls and the responder name. -/
theorem getResponsesByAsker_fallback_empty (env₁ env₂ : Env) (responderName : JsVal) :
    ∃ P r w₁ w₂,
      createProposal none env₁ [(.fromName, .str (js "Alice")), (.toName, .str (js "Bob"))]
          (World.mk [] [])
        = (.ok (some (.obj P)), w₁) ∧
      createResponse none env₂
          [(.proposalId, P.get .id), (.response, OUI), (.responderName, responderName)] w₁
        = (.ok (some (.obj r)), w₂) ∧
      P.get .from_name = .str (js "Alice") ∧
      getResponsesByAsker none (.str (js "Alice")) w₂ = (.ok (some (.arr [])), w₂) := by
  have hkey := proposalKey_ne_responsesKey env₁
    [(.fromName, .str (js "Alice")), (.toName, .str (js "Bob"))]
  have hxs : responsesOf (createProposalLocal env₁
      [(.fromName, .str (js "Alice")), (.toName, .str (js "Bob"))] (World.mk [] [])).2.storage
      = some [] := by
    rw [createProposalLocal_eq]
    show responsesOf (LocalStorage.setItem _ _ _) = _
    rw [responsesOf_setItem_ne _ _ _ hkey]
    rfl
  have hstep := createResponseLocal_fresh env₂
    [(.proposalId, (localProposal env₁
        [(.fromName, .str (js "Alice")), (.toName, .str (js "Bob"))]).get .id),
      (.response, OUI), (.responderName, responderName)] _ [] hxs rfl
  refine ⟨localProposal env₁ [(.fromName, .str (js "Alice")), (.toName, .str (js "Bob"))], _,
    (createProposalLocal env₁
      [(.fromName, .str (js "Alice")), (.toName, .str (js "Bob"))] (World.mk [] [])).2, _,
    ?_, (createResponse_eq_local _ _ _ _).trans hstep, ?_, ?_⟩
  · rw [createProposal_none]; rfl
  · have : sanitizeInput (.str (js "Alice")) = js "Alice" := by decide
    simp [localProposal, JsObj.get, this]
  · rw [getResponsesByAsker_none,
      getResponsesByAskerLocal_of _ _ _ (responsesOf_setItem _ _)]
    simp [localResponse, JsObj.get]

/-! ### The response list only grows; proposal keys -/

/-- C18. The fallback response list is append-only: on a store whose response list is
`xs`, a `createResponse` call (any remote handle, argument and readings) either returns
`null` and leaves the whole state unchanged, which happens exactly when `xs` holds an
`OUI` record for the proposalId, or returns a record `r` and leaves `xs ++ [r]` as the
response list. -/
theorem createResponse_appends (supabase : Option Remote) (env : Env)
    (responseData : JsObj) (w : World) (xs : List JsObj)
    (h : responsesOf w.storage = some xs) :
    (createResponse supabase env responseData w = (.ok none, w) ∧
      ∃ r ∈ xs, r.get .proposal_id = responseData.get .proposalId ∧ r.get .response = OUI) ∨
    ((∃ r w₁, createResponse supabase env responseData w = (.ok (some (.obj r)), w₁) ∧
        responsesOf w₁.storage = some (xs ++ [r])) ∧
      ∀ r ∈ xs, ¬ (r.get .proposal_id = responseData.get .proposalId ∧ r.get .response = OUI)) := by
  rw [createResponse_eq_local, createResponseLocal_of env responseData w xs h]
  cases hf : xs.find? (isOuiFor (responseData.get .proposalId)) with
  | some r =>
    left
    have hp := List.find?_some hf
    have hmem := List.mem_of_find?_eq_some hf
    have hp' : r.get .proposal_id = responseData.get .proposalId ∧ r.get .response = OUI := by
      simpa [isOuiFor] using hp
    exact ⟨by simp, r, hmem, hp'⟩
  | none =>
    right
    refine ⟨⟨localResponse env responseData, _, by simp; rfl, responsesOf_setItem _ _⟩, ?_⟩
    intro r hr
    have := (List.find?_eq_none.1 hf) r hr
    simpa [isOuiFor] using this

/-- C18, at a concrete input: a list holding one declined attempt for `p1`; the `OUI`
response is appended after it. -/
theorem createResponse_appends_witness :
    ∃ r w₁,
      createResponse none exampleEnv
          [(.proposalId, .str (js "p1")), (.response, OUI)]
          (World.mk [(responsesKey, .arr
            [[(.proposal_id, .str (js "p1")), (.response, .str (js "NON_TENTATIVE"))]])] [])
        = (.ok (some (.obj r)), w₁) ∧
      responsesOf w₁.storage = some
        ([[(.proposal_id, .str (js "p1")), (.response, .str (js "NON_TENTATIVE"))]] ++ [r]) := by
  rcases createResponse_appends none exampleEnv [(.proposalId, .str (js "p1")), (.response, OUI)]
    (World.mk [(responsesKey, .arr
      [[(.proposal_id, .str (js "p1")), (.response, .str (js "NON_TENTATIVE"))]])] [])
    [[(.proposal_id, .str (js "p1")), (.response, .str (js "NON_TENTATIVE"))]] rfl
    with ⟨_, r, hr, _, h2⟩ | ⟨h, _⟩
  · rw [List.mem_singleton] at hr
    subst hr
    exact absurd h2 (by decide)
  · exact h

theorem decimalCore_spec (fuel n : Nat) (acc : JsString) (h : n < fuel) :
    ∃ ds, decimalCore fuel n acc = ds ++ acc ∧ (∀ x ∈ ds, 48 ≤ x ∧ x ≤ 57) ∧
      decimalValue ds = n := by
  induction fuel generalizing n acc with
  | zero => omega
  | succ fuel ih =>
    unfold decimalCore
    by_cases h0 : n / 10 = 0
    · simp only [h0, if_true]
      refine ⟨[48 + n % 10], rfl, ?_, ?_⟩
      · intro x hx
        rw [List.mem_singleton] at hx
        omega
      · simp [decimalValue]
        omega
    · simp only [h0, if_false]
      obtain ⟨ds, hds, hdig, hval⟩ := ih (n / 10) ((48 + n % 10) :: acc) (by omega)
      refine ⟨ds ++ [48 + n % 10], by simp [hds], ?_, ?_⟩
      · intro x hx
        rcases List.mem_append.1 hx with hx | hx
        · exact hdig x hx
        · rw [List.mem_singleton] at hx
          omega
      · unfold decimalValue at hval ⊢
        rw [List.foldl_append, hval]
        simp
        omega

/-- The decimal text of a number is made of digits and stands for the number. -/
theorem decimal_spec (n : Nat) :
    (∀ x ∈ decimal n, 48 ≤ x ∧ x ≤ 57) ∧ decimalValue (decimal n) = n := by
  obtain ⟨ds, hds, hdig, hval⟩ := decimalCore_spec (n + 1) n [] (Nat.lt_succ_self n)
  unfold decimal
  rw [hds, List.append_nil]
  exact ⟨hdig, hval⟩

theorem decimal_injective (a b : Nat) (h : decimal a = decimal b) : a = b := by
  rw [← (decimal_spec a).2, ← (decimal_spec b).2, h]

/-- Two texts `digits_rest` are equal only if their digits and their rests are. -/
theorem split_at_underscore (d₁ d₂ s₁ s₂ : JsString)
    (h₁ : ∀ x ∈ d₁, x ≠ 95) (h₂ : ∀ x ∈ d₂, x ≠ 95)
    (h : d₁ ++ 95 :: s₁ = d₂ ++ 95 :: s₂) : d₁ = d₂ ∧ s₁ = s₂ := by
  induction d₁ generalizing d₂ with
  | nil =>
    cases d₂ with
    | nil => simpa using h
    | cons y ys =>
      simp at h
      exact absurd h.1.symm (h₂ y (List.mem_cons_self _ _))
  | cons x xs ih =>
    cases d₂ with
    | nil =>
      simp at h
      exact absurd h.1 (h₁ x (List.mem_cons_self _ _))
    | cons y ys =>
      simp only [List.cons_append, List.cons.injEq] at h
      obtain ⟨hd, htl⟩ := ih ys (fun z hz => h₁ z (List.mem_cons_of_mem _ hz))
        (fun z hz => h₂ z (List.mem_cons_of_mem _ hz)) h.2
      exact ⟨by rw [h.1, hd], htl⟩

/-- When two fallback proposals get the same key. -/
theorem proposalKey_eq_iff (env₁ env₂ : Env) (pd₁ pd₂ : JsObj) :
    (localProposal env₁ pd₁).get .unique_url_id = (localProposal env₂ pd₂).get .unique_url_id ↔
      (env₁.now2 = env₂.now2 ∧ substr 2 9 env₁.random36 = substr 2 9 env₂.random36) := by
  have hjs : js "_" = [95] := by decide
  simp only [localProposal, JsObj.get, if_true, reduceCtorEq, if_false, JsVal.str.injEq,
    List.append_assoc, List.append_cancel_left_eq, hjs, List.singleton_append]
  constructor
  · intro h
    have hd : ∀ n, ∀ x ∈ decimal n, x ≠ 95 := by
      intro n x hx
      have := (decimal_spec n).1 x hx
      omega
    obtain ⟨h1, h2⟩ := split_at_underscore _ _ _ _ (hd _) (hd _) h
    exact ⟨decimal_injective _ _ h1, h2⟩
  · rintro ⟨h1, h2⟩
    rw [h1, h2]

/-- C19 as stated fails: two `createProposal` calls on the fallback store that read the
same clock value and draw the same random text give both proposals the same
`unique_url_id`, and the second record replaces the first. -/
theorem createProposal_same_readings_collide :
    createProposal none exampleEnv [(.fromName, .str (js "Alice")), (.toName, .str (js "Bob"))]
        (World.mk [] [])
      = (.ok (some (.obj (localProposal exampleEnv
          [(.fromName, .str (js "Alice")), (.toName, .str (js "Bob"))]))),
        (createProposal none exampleEnv
          [(.fromName, .str (js "Alice")), (.toName, .str (js "Bob"))] (World.mk [] [])).2) ∧
    (localProposal exampleEnv [(.fromName, .str (js "Alice")), (.toName, .str (js "Bob"))]).get
        .unique_url_id
      = (localProposal exampleEnv [(.fromName, .str (js "Carol")), (.toName, .str (js "Dave"))]).get
        .unique_url_id ∧
    (getProposalByUniqueId none
        ((localProposal exampleEnv
          [(.fromName, .str (js "Alice")), (.toName, .str (js "Bob"))]).get .unique_url_id)
        (createProposal none exampleEnv
          [(.fromName, .str (js "Carol")), (.toName, .str (js "Dave"))]
          (createProposal none exampleEnv
            [(.fromName, .str (js "Alice")), (.toName, .str (js "Bob"))] (World.mk [] [])).2).2).1
      = .ok (some (.obj (localProposal exampleEnv
          [(.fromName, .str (js "Carol")), (.toName, .str (js "Dave"))]))) ∧
    localProposal exampleEnv [(.fromName, .str (js "Alice")), (.toName, .str (js "Bob"))]
      ≠ localProposal exampleEnv [(.fromName, .str (js "Carol")), (.toName, .str (js "Dave"))] :=
  ⟨rfl, rfl, rfl, by decide⟩

/-- C19, amended. Two proposals created through the fallback store receive the same
`unique_url_id` exactly when the two calls read the same `Date.now()` value for it and
draw the same nine-character random suffix; when the ids differ, the later
`createProposal` leaves the record of the earlier one in place. -/
theorem createProposal_keys_differ_iff (env₁ env₂ : Env) (pd₁ pd₂ : JsObj) (w : World) :
    ∃ P₁ P₂ w₁ w₂,
      createProposal none env₁ pd₁ w = (.ok (some (.obj P₁)), w₁) ∧
      createProposal none env₂ pd₂ w₁ = (.ok (some (.obj P₂)), w₂) ∧
      (P₁.get .unique_url_id = P₂.get .unique_url_id ↔
        (env₁.now2 = env₂.now2 ∧ substr 2 9 env₁.random36 = substr 2 9 env₂.random36)) ∧
      (P₁.get .unique_url_id ≠ P₂.get .unique_url_id →
        getProposalByUniqueId none (P₁.get .unique_url_id) w₂ = (.ok (some (.obj P₁)), w₂)) := by
  refine ⟨localProposal env₁ pd₁, localProposal env₂ pd₂, (createProposalLocal env₁ pd₁ w).2,
    (createProposalLocal env₂ pd₂ (createProposalLocal env₁ pd₁ w).2).2, ?_, ?_,
    proposalKey_eq_iff env₁ env₂ pd₁ pd₂, ?_⟩
  · rw [createProposal_none]; rfl
  · rw [createProposal_none]; rfl
  · intro hne
    have hkey : ((localProposal env₁ pd₁).get .unique_url_id).toJsString
        ≠ ((localProposal env₂ pd₂).get .unique_url_id).toJsString := by
      intro h
      apply hne
      simp only [localProposal, JsObj.get, if_true, reduceCtorEq, if_false,
        JsVal.toJsString] at h ⊢
      rw [h]
    rw [getProposalByUniqueId_none, getProposalLocal_eq]
    congr 2
    show LocalStorage.getItem (LocalStorage.setItem (LocalStorage.setItem _ _ _) _ _) _ = _
    rw [getItem_setItem_ne _ _ _ _ hkey, getItem_setItem_same]

/-- C19 amended, at a concrete input: two calls one millisecond apart. -/
theorem createProposal_keys_differ_iff_witness :
    ∃ P₁ P₂ w₁ w₂,
      createProposal none exampleEnv [(.fromName, .str (js "Alice"))] (World.mk [] [])
        = (.ok (some (.obj P₁)), w₁) ∧
      createProposal none { exampleEnv with now2 := 1002 } [(.fromName, .str (js "Carol"))] w₁
        = (.ok (some (.obj P₂)), w₂) ∧
      getProposalByUniqueId none (P₁.get .unique_url_id) w₂ = (.ok (some (.obj P₁)), w₂) := by
  obtain ⟨P₁, P₂, w₁, w₂, h1, h2, hiff, hkeep⟩ :=
    createProposal_keys_differ_iff exampleEnv { exampleEnv with now2 := 1002 }
      [(.fromName, .str (js "Alice"))] [(.fromName, .str (js "Carol"))] (World.mk [] [])
  refine ⟨P₁, P₂, w₁, w₂, h1, h2, hkeep ?_⟩
  intro h
  exact absurd (hiff.1 h).1 (by decide)

/-! ### Clean-up of expired entries -/

theorem getItem_removeItem (ls : LocalStorage) (k₀ k : JsString) :
    (ls.removeItem k₀).getItem k = if k = k₀ then none else ls.getItem k := by
  induction ls with
  | nil => simp [LocalStorage.removeItem, LocalStorage.getItem]
  | cons hd tl ih =>
    obtain ⟨k', v'⟩ := hd
    unfold LocalStorage.removeItem at ih ⊢
    by_cases h1 : k' = k₀
    · subst h1
      by_cases h2 : k = k'
      · subst h2
        simpa [List.filter_cons, LocalStorage.getItem] using ih
      · have h3 : ¬ k' = k := fun h => h2 h.symm
        simpa [List.filter_cons, LocalStorage.getItem, h2, h3] using ih
    · by_cases h2 : k = k₀
      · subst h2
        simpa [List.filter_cons, LocalStorage.getItem, h1] using ih
      · by_cases h3 : k' = k
        · simp [List.filter_cons, LocalStorage.getItem, h1, h2, h3]
        · simpa [List.filter_cons, LocalStorage.getItem, h1, h2, h3] using ih

theorem keptOrExpired_refl (ls : LocalStorage) : KeptOrExpired ls ls :=
  fun _ => Or.inl rfl

theorem keptOrExpired_trans (a b c : LocalStorage) (h₁ : KeptOrExpired a b)
    (h₂ : KeptOrExpired b c) : KeptOrExpired a c := by
  intro key
  rcases h₂ key with h | ⟨hnone, v, hv, _⟩
  · rcases h₁ key with h' | ⟨hnone', hex⟩
    · exact Or.inl (h.trans h')
    · exact Or.inr ⟨h.trans hnone', hex⟩
  · rcases h₁ key with h' | ⟨hnone', _⟩
    · right
      refine ⟨hnone, v, ?_, by assumption⟩
      rw [← h', hv]
    · rw [hnone'] at hv
      cases hv

/-- What `getWithExpiry` does, by the entry under the key. -/
theorem getWithExpiry_eq (f : JsString → Option Int) (now : Nat) (k₀ : JsString) (w : World) :
    getWithExpiry f now k₀ w =
      match w.storage.getItem k₀ with
      | none => (.ok .null, w)
      | some item =>
        if numberGreaterThan f now (item.prop .expiry) = true
        then (.ok .null, World.mk (w.storage.removeItem k₀) w.calls)
        else (.ok (item.prop .data), w) := by
  unfold getWithExpiry
  cases hg : w.storage.getItem k₀ with
  | none => simp [bind, Js.bind, getItem, hg, pure, Js.pure]
  | some item =>
    by_cases hx : numberGreaterThan f now (item.prop .expiry) = true
    · simp [bind, Js.bind, getItem, hg, pure, Js.pure, hx, removeItem]
    · simp [bind, Js.bind, getItem, hg, pure, Js.pure, hx]

/-- One `getWithExpiry` returns, leaves the log alone and removes at most the entry of
its key, and only if that entry has an `expiry`. -/
theorem getWithExpiry_step (f : JsString → Option Int) (now : Nat) (k₀ : JsString) (w : World) :
    (∃ v, (getWithExpiry f now k₀ w).1 = .ok v) ∧
    (getWithExpiry f now k₀ w).2.calls = w.calls ∧
    KeptOrExpired w.storage (getWithExpiry f now k₀ w).2.storage := by
  rw [getWithExpiry_eq]
  cases hg : w.storage.getItem k₀ with
  | none => exact ⟨⟨_, rfl⟩, rfl, keptOrExpired_refl _⟩
  | some item =>
    by_cases hx : numberGreaterThan f now (item.prop .expiry) = true
    · dsimp only
      rw [if_pos hx]
      refine ⟨⟨_, rfl⟩, rfl, ?_⟩
      intro key
      show LocalStorage.getItem (LocalStorage.removeItem _ _) _ = _ ∨ _
      rw [getItem_removeItem]
      by_cases hk : key = k₀
      · subst hk
        right
        refine ⟨by simp, item, hg, ?_⟩
        intro hu
        rw [hu] at hx
        simp [numberGreaterThan] at hx
      · left
        simp [hk]
    · dsimp only
      rw [if_neg hx]
      exact ⟨⟨_, rfl⟩, rfl, keptOrExpired_refl _⟩

theorem clearExpiredFrom_cons (f : JsString → Option Int) (clock : Nat → Nat) (i : Nat)
    (k : JsString) (rest : List JsString) (w : World) :
    clearExpiredFrom f clock i (k :: rest) w =
      match getWithExpiry f (clock i) k w with
      | (.ok _, w') => clearExpiredFrom f clock (i + 1) rest w'
      | (.error e, w') => (.error e, w') := by
  rw [clearExpiredFrom]
  simp only [bind, Js.bind]
  cases getWithExpiry f (clock i) k w with
  | mk r w' => cases r <;> rfl

theorem clearExpiredFrom_spec (f : JsString → Option Int) (clock : Nat → Nat) (i : Nat)
    (keys : List JsString) (w : World) :
    (clearExpiredFrom f clock i keys w).1 = .ok () ∧
    (clearExpiredFrom f clock i keys w).2.calls = w.calls ∧
    KeptOrExpired w.storage (clearExpiredFrom f clock i keys w).2.storage := by
  induction keys generalizing i w with
  | nil => exact ⟨rfl, rfl, keptOrExpired_refl _⟩
  | cons k rest ih =>
    obtain ⟨⟨v, hv⟩, hc, hk⟩ := getWithExpiry_step f (clock i) k w
    obtain ⟨h1, h2, h3⟩ := ih (i + 1) (getWithExpiry f (clock i) k w).2
    have hstep : clearExpiredFrom f clock i (k :: rest) w
        = clearExpiredFrom f clock (i + 1) rest (getWithExpiry f (clock i) k w).2 := by
      rw [clearExpiredFrom_cons]
      cases hr : getWithExpiry f (clock i) k w with
      | mk res w' =>
        rw [hr] at hv
        simp only at hv
        subst hv
        rfl
    rw [hstep]
    exact ⟨h1, h2.trans hc, keptOrExpired_trans _ _ _ hk h3⟩

/-- C20. `Storage.clearExpired` returns and, whatever the clock readings and the store,
leaves in place every proposal record written by `createProposalLocal` and the response
list; an entry it removes has an `expiry` property, which among the entries the
application writes only those of `Storage.setWithExpiry` have. -/
theorem clearExpired_keeps_proposals_and_responses (stringToNumber : JsString → Option Int)
    (clock : Nat → Nat) (w : World) :
    (clearExpired stringToNumber clock w).1 = .ok () ∧
    (∀ (key : JsString) (env : Env) (proposalData : JsObj),
      w.storage.getItem key = some (.obj (localProposal env proposalData)) →
      (clearExpired stringToNumber clock w).2.storage.getItem key
        = some (.obj (localProposal env proposalData))) ∧
    (∀ xs : List JsObj,
      w.storage.getItem responsesKey = some (.arr xs) →
      (clearExpired stringToNumber clock w).2.storage.getItem responsesKey = some (.arr xs)) ∧
    (∀ (key : JsString) (v : Json),
      w.storage.getItem key = some v →
      (clearExpired stringToNumber clock w).2.storage.getItem key = none →
      ∃ o, v = .obj o ∧ o.get .expiry ≠ .undefined) ∧
    (∀ (key : JsString) (v : Json),
      (clearExpired stringToNumber clock w).2.storage.getItem key = some v →
      w.storage.getItem key = some v) := by
  obtain ⟨h1, _, h3⟩ := clearExpiredFrom_spec stringToNumber clock 0 (w.storage.map Prod.fst) w
  have h3' : KeptOrExpired w.storage (clearExpired stringToNumber clock w).2.storage := h3
  refine ⟨h1, ?_, ?_, ?_, ?_⟩
  · intro key env pd hk
    rcases h3' key with h | ⟨_, v, hv, hexp⟩
    · rw [h, hk]
    · rw [hk] at hv
      injection hv with hv
      subst hv
      exact absurd (by simp [Json.prop, localProposal, JsObj.get]) hexp
  · intro xs hk
    rcases h3' responsesKey with h | ⟨_, v, hv, hexp⟩
    · rw [h, hk]
    · rw [hk] at hv
      injection hv with hv
      subst hv
      exact absurd rfl hexp
  · intro key v hk hnone
    rcases h3' key with h | ⟨_, v', hv, hexp⟩
    · rw [h, hk] at hnone
      cases hnone
    · rw [hk] at hv
      injection hv with hv
      subst hv
      cases v with
      | obj o => exact ⟨o, rfl, hexp⟩
      | arr xs => exact absurd rfl hexp
  · intro key v hk
    rcases h3' key with h | ⟨hnone, _⟩
    · rw [← h, hk]
    · rw [hnone] at hk
      cases hk

/-- C20, at a concrete input: a store with a proposal, the response list and a session
entry that expired; the clean-up at time 5000 keeps the first two and removes the
third. -/
theorem clearExpired_keeps_proposals_and_responses_witness :
    (clearExpired (fun _ => none) (fun _ => 5000)
        (World.mk
          [(js "valentine_1001_4fzyo82mv",
              .obj (localProposal exampleEnv [(.fromName, .str (js "Alice"))])),
            (responsesKey, .arr [[(.proposal_id, .str (js "p1")), (.response, OUI)]]),
            (js "user_session_id", .obj [(.data, .str (js "s")), (.expiry, .num 2000)])]
          [])).2.storage
      = [(js "valentine_1001_4fzyo82mv",
            .obj (localProposal exampleEnv [(.fromName, .str (js "Alice"))])),
          (responsesKey, .arr [[(.proposal_id, .str (js "p1")), (.response, OUI)]])] ∧
    (clearExpired (fun _ => none) (fun _ => 5000)
        (World.mk
          [(js "valentine_1001_4fzyo82mv",
              .obj (localProposal exampleEnv [(.fromName, .str (js "Alice"))])),
            (responsesKey, .arr [[(.proposal_id, .str (js "p1")), (.response, OUI)]]),
            (js "user_session_id", .obj [(.data, .str (js "s")), (.expiry, .num 2000)])]
          [])).2.storage.getItem responsesKey
      = some (.arr [[(.proposal_id, .str (js "p1")), (.response, OUI)]]) :=
  ⟨by decide,
    (clearExpired_keeps_proposals_and_responses (fun _ => none) (fun _ => 5000) _).2.2.1 _
      (by decide)⟩

/-! ### Start-up, share links, validated names, storage with expiry -/

/-- C21. When the page has no `supabaseClient` global, `initializeDatabase` appends the
script element and returns `true` while the handle `supabase` is still unset (the
`onload` handler that would create it has not run, and never runs if the script fails
to load); the operations that follow take the local path. -/
theorem initializeDatabase_true_without_handle (env : Env) (proposalData : JsObj) (w : World) :
    (initializeDatabase { supabaseClient := none, domError := none } none).result = true ∧
    (initializeDatabase { supabaseClient := none, domError := none } none).supabase.isNone = true ∧
    (initializeDatabase { supabaseClient := none, domError := none } none).onloadPending = true ∧
    createProposal (initializeDatabase { supabaseClient := none, domError := none } none).supabase
        env proposalData w
      = createProposalLocal env proposalData w :=
  ⟨rfl, rfl, rfl, createProposal_none env proposalData w⟩

/-- C22. The share link does not survive names with a space or an accented letter:
`validateName` accepts `Jean Paul` and `Zoé`, but the link generated for them carries
`from=Jean%2520Paul` (the name is percent-encoded twice), the parsed parameter is
`Jean%20Paul`, and `validateUrlParams` answers `isValid == false`, `data == null`;
likewise for `Zoé`.  Names of plain letters, apostrophes and hyphens do round-trip. -/
theorem generateProposalUrl_round_trip_fails :
    (validateName (utf16 "Jean Paul")).isValid = true ∧
    (validateName (utf16 "Zoé")).isValid = true ∧
    (validateName (utf16 "Bob")).isValid = true ∧
    generateProposalUrl (js "https://x.org/") (js "valentine_1001_4fzyo82mv")
        (utf16 "Jean Paul") (utf16 "Bob")
      = some (js "https://x.org/?id=valentine_1001_4fzyo82mv&from=Jean%2520Paul&to=Bob") ∧
    searchParamsGet
        (parseSearchParams (searchOf
          (js "https://x.org/?id=valentine_1001_4fzyo82mv&from=Jean%2520Paul&to=Bob")))
        (js "from")
      = some (js "Jean%20Paul") ∧
    validateUrlParams
        (parseSearchParams (searchOf
          (js "https://x.org/?id=valentine_1001_4fzyo82mv&from=Jean%2520Paul&to=Bob")))
      = { isValid := false, data := none } ∧
    (generateProposalUrl (js "https://x.org/") (js "valentine_1001_4fzyo82mv")
        (utf16 "Zoé") (utf16 "Bob")).map
        (fun url => validateUrlParams (parseSearchParams (searchOf url)))
      = some { isValid := false, data := none } ∧
    (generateProposalUrl (js "https://x.org/") (js "valentine_1001_4fzyo82mv")
        (utf16 "O'Neil") (utf16 "Anne-Lise")).map
        (fun url => validateUrlParams (parseSearchParams (searchOf url)))
      = some { isValid := true,
               data := some { id := js "valentine_1001_4fzyo82mv", from_ := utf16 "O'Neil",
                              to_ := some (utf16 "Anne-Lise") } } := by
  refine ⟨?_, ?_, ?_, ?_, ?_, ?_, ?_, ?_⟩ <;> decide

/-- What a greedy `[class]*` consumed is made of the class. -/
theorem starLoop_unit_consumed (p : Nat → Bool) (n : Nat) (prev : Option Nat) (s : JsString)
    (st : Pos) (h : st ∈ starLoop (Regex.unit p).run n prev s) :
    ∃ xs, s = xs ++ st.2 ∧ ∀ x ∈ xs, p x = true := by
  induction n generalizing prev s with
  | zero =>
    simp only [starLoop, List.mem_singleton] at h
    subst h
    exact ⟨[], rfl, by simp⟩
  | succ n ih =>
    rw [starLoop_succ, List.mem_append] at h
    rcases h with h | h
    · rw [List.mem_flatMap] at h
      obtain ⟨st₁, hst₁, hrec⟩ := h
      have hst₁' := (List.mem_filter.1 hst₁).1
      cases s with
      | nil => simp [run_unit_nil] at hst₁'
      | cons c t =>
        rw [run_unit_cons] at hst₁'
        by_cases hc : p c = true
        · simp only [hc, if_true, List.mem_singleton] at hst₁'
          subst hst₁'
          obtain ⟨xs, hxs, hall⟩ := ih (some c) t hrec
          refine ⟨c :: xs, by simp only [List.cons_append]; rw [← hxs], ?_⟩
          intro x hx
          rcases List.mem_cons.1 hx with hx | hx
          · rw [hx]; exact hc
          · exact hall x hx
        · simp [hc] at hst₁'
    · rw [List.mem_singleton] at h
      subst h
      exact ⟨[], rfl, by simp⟩

theorem run_bol (prev : Option Nat) (s : JsString) :
    Regex.bol.run prev s = if prev.isNone then [(prev, s)] else [] := rfl

theorem run_eol (prev : Option Nat) (s : JsString) :
    Regex.eol.run prev s = if s.isEmpty then [(prev, s)] else [] := rfl

/-- The name pattern matches only at the start, and only a text made of its class. -/
theorem nameRe_run_mem (prev : Option Nat) (s : JsString) (st : Pos)
    (h : st ∈ nameRe.run prev s) : prev = none ∧ ∀ x ∈ s, isNameChar x = true := by
  simp only [nameRe, Regex.seqAll, Regex.plus, run_seq, run_bol, run_eol, run_eps, run_star,
    List.mem_flatMap] at h
  obtain ⟨st₀, hst₀, st₂, ⟨st₁, hst₁, hst₂⟩, st₃, hst₃, _⟩ := h
  cases prev with
  | some c => simp at hst₀
  | none =>
    refine ⟨rfl, ?_⟩
    simp only [Option.isNone_none, if_true, List.mem_singleton] at hst₀
    subst hst₀
    cases s with
    | nil => simp [run_unit_nil] at hst₁
    | cons c t =>
      rw [run_unit_cons] at hst₁
      by_cases hc : isNameChar c = true
      · simp only [hc, if_true, List.mem_singleton] at hst₁
        subst hst₁
        obtain ⟨xs, hxs, hall⟩ := starLoop_unit_consumed isNameChar _ _ _ _ hst₂
        have hempty : st₂.2 = [] := by
          by_cases he : st₂.2.isEmpty = true
          · simpa using he
          · simp [he] at hst₃
        simp only at hxs
        rw [hempty, List.append_nil] at hxs
        intro x hx
        rcases List.mem_cons.1 hx with hx | hx
        · rw [hx]; exact hc
        · rw [hxs] at hx; exact hall x hx
      · simp [hc] at hst₁

theorem nameRe_testFrom (prev : Option Nat) (s : JsString)
    (h : nameRe.testFrom prev s = true) : prev = none ∧ ∀ x ∈ s, isNameChar x = true := by
  have hexec : ∀ (prev : Option Nat) (s : JsString), (nameRe.exec prev s).isSome = true →
      prev = none ∧ ∀ x ∈ s, isNameChar x = true := by
    intro prev s hs
    unfold Regex.exec at hs
    cases hr : nameRe.run prev s with
    | nil => simp [hr] at hs
    | cons st rest => exact nameRe_run_mem prev s st (by rw [hr]; exact List.mem_cons_self _ _)
  induction s generalizing prev with
  | nil => exact hexec prev [] (by simpa [Regex.testFrom] using h)
  | cons c t ih =>
    simp only [Regex.testFrom, Bool.or_eq_true] at h
    rcases h with h | h
    · exact hexec prev (c :: t) h
    · exact absurd (ih (some c) h).1 (by simp)

/-- C23. For every name `Validator.validateName` accepts, `sanitizeInput(name)` is
`name.trim()`: a validated name is stored as typed, trimmed. -/
theorem sanitizeInput_of_valid_name (name : JsString)
    (h : (validateName name).isValid = true) : sanitizeInput (.str name) = trim name := by
  unfold validateName at h
  simp only at h
  by_cases h1 : (trim name).isEmpty = true
  · simp [h1] at h
  · by_cases h2 : (trim name).length < 2
    · simp [h1, h2] at h
    · by_cases h3 : (trim name).length > 50
      · simp [h1, h2, h3] at h
      · by_cases h4 : nameRe.test (trim name) = true
        · have hall := (nameRe_testFrom none (trim name) h4).2
          have hlt : 60 ∉ trim name := fun hm => by
            have := hall 60 hm
            exact absurd this (by decide)
          have hne : name.isEmpty = false := by
            cases name with
            | nil => simp [trim] at h1
            | cons x r => rfl
          have hscript : replaceAll scriptRe (trim name) = trim name :=
            replaceAllFrom_of_no_lt _ _ _ _ hlt
          have htag : replaceAll tagRe (trim name) = trim name :=
            replaceAllFrom_of_no_lt _ _ _ _ hlt
          unfold sanitizeInput
          simp only [JsVal.truthy, hne, JsVal.toJsString, hscript, htag, substring0]
          simpa using List.take_of_length_le (Nat.le_of_not_gt h3)
        · simp [h1, h2, h3, h4] at h

/-- C23, at a concrete input: ` Zoé O'Neil-Smith ` with a space on either side. -/
theorem sanitizeInput_of_valid_name_witness :
    (validateName (utf16 " Zoé O'Neil-Smith ")).isValid = true ∧
    sanitizeInput (.str (utf16 " Zoé O'Neil-Smith ")) = trim (utf16 " Zoé O'Neil-Smith ") :=
  ⟨by decide, sanitizeInput_of_valid_name (utf16 " Zoé O'Neil-Smith ") (by decide)⟩

theorem setWithExpiry_eq (now : Nat) (key : JsString) (data : JsVal) (ttl : Int) (w : World) :
    setWithExpiry now key data ttl w =
      (.ok (), World.mk (w.storage.setItem key
        (.obj [(.data, data), (.expiry, .num (now + ttl))])) w.calls) := rfl

/-- C24. After `Storage.setWithExpiry(key, data, ttl)` at time `t0`,
`Storage.getWithExpiry(key)` at time `t` returns `data` and changes nothing when
`t <= t0 + ttl`; when `t > t0 + ttl` it returns `null` and the key is gone from storage;
for a key local storage does not hold it returns `null` and changes nothing. -/
theorem setWithExpiry_then_getWithExpiry (stringToNumber : JsString → Option Int)
    (t0 t : Nat) (key : JsString) (data : JsVal) (ttl : Int) (w : World) :
    ((t : Int) ≤ t0 + ttl →
      getWithExpiry stringToNumber t key (setWithExpiry t0 key data ttl w).2
        = (.ok data, (setWithExpiry t0 key data ttl w).2)) ∧
    ((t0 : Int) + ttl < t →
      (getWithExpiry stringToNumber t key (setWithExpiry t0 key data ttl w).2).1 = .ok .null ∧
      (getWithExpiry stringToNumber t key
        (setWithExpiry t0 key data ttl w).2).2.storage.getItem key = none) ∧
    (w.storage.getItem key = none →
      getWithExpiry stringToNumber t key w = (.ok .null, w)) := by
  refine ⟨?_, ?_, ?_⟩
  · intro hle
    rw [getWithExpiry_eq, setWithExpiry_eq]
    simp only [getItem_setItem_same, Json.prop, JsObj.get, if_true, reduceCtorEq, if_false,
      numberGreaterThan, decide_eq_true_eq]
    rw [if_neg (by omega)]
  · intro hlt
    rw [getWithExpiry_eq, setWithExpiry_eq]
    simp only [getItem_setItem_same, Json.prop, JsObj.get, if_true, reduceCtorEq, if_false,
      numberGreaterThan, decide_eq_true_eq]
    rw [if_pos hlt]
    exact ⟨rfl, by
      show LocalStorage.getItem (LocalStorage.removeItem _ _) _ = none
      rw [getItem_removeItem]; simp⟩
  · intro hnone
    rw [getWithExpiry_eq, hnone]

/-- C24, at a concrete input: a session id stored at time 1000 for one hour, read back
within the hour. -/
theorem setWithExpiry_then_getWithExpiry_witness :
    getWithExpiry (fun _ => none) 2000 (js "current_asker")
        (setWithExpiry 1000 (js "current_asker") (.str (js "Alice")) 3600000 (World.mk [] [])).2
      = (.ok (.str (js "Alice")),
        (setWithExpiry 1000 (js "current_asker") (.str (js "Alice")) 3600000 (World.mk [] [])).2) :=
  (setWithExpiry_then_getWithExpiry (fun _ => none) 1000 2000 (js "current_asker")
    (.str (js "Alice")) 3600000 (World.mk [] [])).1 (by decide)

end Valentine
